import Mathlib

/-!
# cppwinping: a shallow embedding of the ICMP echo session engine

The development embeds `rawping.h`, `rawping.cpp` and `winping.cpp`.

Conventions.
* A buffer (`char*`) is a list of bytes; a byte is read modulo 256 and a
  multi-byte field is read in host (little-endian, x86/MSVC) order, the
  way the source reads it through the packed `IPHeader` / `ICMPHeader`
  structs.
* An `int` argument that the source compares with `<` or `>` is an `Int`.
* A return code (`int rc`) is represented by its 32-bit pattern, a natural
  number below `2^32`: the source only ever tests return codes for
  equality and combines them with `^` and `&`.
-/

namespace Winping

/-! ## Constants of `rawping.h` and of winsock2.h -/

def ICMP_ECHO_REPLY : Nat := 0
def ICMP_DEST_UNREACH : Nat := 3
def ICMP_TTL_EXPIRE : Nat := 11
def ICMP_ECHO_REQUEST : Nat := 8

/-- Minimum ICMP packet size, in bytes. -/
def ICMP_MIN : Nat := 8

def WSASUCCESS : Nat := 0x00000000
def EINVALID_HOSTNAME : Nat := 0xe0000000
def ETOO_FEW_BYTES : Nat := 0xe1100000
def EPACKET_SIZE_OUT_OF_BOUNDS : Nat := 0xe1200000
def ETTL_EXPIRED : Nat := 0xe2100000
def ETTL_SIZE_OUT_OF_BOUNDS : Nat := 0xe2200000
def EUNKNOWN_ICMP_PACKET : Nat := 0xe3000000
def EBUFFER_ALLOCATION_FAILED : Nat := 0xe4000000
def EWINSOCK_VERSION : Nat := 0xef000000

/-- Winsock error codes (winsock2.h). -/
def WSAETIMEDOUT : Nat := 10060
def WSAEHOSTUNREACH : Nat := 10065
def WSAHOST_NOT_FOUND : Nat := 11001
def WSATRY_AGAIN : Nat := 11002

def DEFAULT_PACKET_SIZE : Nat := 32
def DEFAULT_TTL : Nat := 30
def MAX_PING_DATA_SIZE : Nat := 1024
def MAX_TTL : Nat := 255

/-- The packed `IPHeader` struct: 1+1+2+2+2+1+1+2+4+4 bytes. -/
def sizeof_IPHeader : Nat := 20

/-- The packed `ICMPHeader` struct: 1+1+2+2+2+4 bytes. -/
def sizeof_ICMPHeader : Nat := 12

def MAX_PING_PACKET_SIZE : Nat := MAX_PING_DATA_SIZE + sizeof_IPHeader

/-! ## Buffers and the two packed headers -/

/-- A `char*` buffer. -/
abbrev Buf := List Nat

/-- The byte at offset `i`. -/
def byteAt (b : Buf) (i : Nat) : Nat := b.getD i 0 % 256

/-- A `USHORT` field at offset `i` (host order). -/
def u16At (b : Buf) (i : Nat) : Nat := byteAt b i + 256 * byteAt b (i + 1)

/-- A `ULONG` field at offset `i` (host order). -/
def u32At (b : Buf) (i : Nat) : Nat :=
  byteAt b i + 256 * byteAt b (i + 1) + 65536 * byteAt b (i + 2) + 16777216 * byteAt b (i + 3)

/-- The field `IPHeader::h_len` (`BYTE h_len:4`, the first bit-field of byte 0). -/
def ip_h_len (reply : Buf) : Nat := byteAt reply 0 % 16

/-- The field `IPHeader::ttl` (byte 8). -/
def ip_ttl (reply : Buf) : Nat := byteAt reply 8

/-- The field `ICMPHeader::type` of the header at `off`. -/
def icmp_type (b : Buf) (off : Nat) : Nat := byteAt b off

/-- The field `ICMPHeader::code` of the header at `off`. -/
def icmp_code (b : Buf) (off : Nat) : Nat := byteAt b (off + 1)

/-- The field `ICMPHeader::checksum` of the header at `off`. -/
def icmp_checksum (b : Buf) (off : Nat) : Nat := u16At b (off + 2)

/-- The field `ICMPHeader::id` of the header at `off`. -/
def icmp_id (b : Buf) (off : Nat) : Nat := u16At b (off + 4)

/-- The field `ICMPHeader::seq` of the header at `off`. -/
def icmp_seq (b : Buf) (off : Nat) : Nat := u16At b (off + 6)

/-- The field `ICMPHeader::timestamp` of the header at `off`. -/
def icmp_timestamp (b : Buf) (off : Nat) : Nat := u32At b (off + 8)

/-- The numeric (`DWORD`) fields of `pingreq`; the two C strings `hostname`
and `addr`, which only the resolver fills in, are not part of the model. -/
structure pingreq where
  packet_size : Nat
  bytes_recv : Nat
  bytes_sent : Nat
  ttl : Nat
  hops : Nat
  seq : Nat
  timems : Nat
deriving DecidableEq, Repr

/-- The constructor `_ping_req_()`: every field zero. -/
def pingreq.init : pingreq :=
  { packet_size := 0, bytes_recv := 0, bytes_sent := 0, ttl := 0, hops := 0, seq := 0, timems := 0 }

/-! ## `decode_reply` (rawping.cpp) -/

/-- The session identifier `(USHORT)GetCurrentProcessId()`. -/
def session_id (pid : Nat) : Nat := pid % 65536

/-- The hop estimate `nHops` that `decode_reply` derives from `reply->ttl`. -/
def nHops (ttl : Nat) : Nat :=
  let n := 256 - ttl
  if n = 192 then 1
  else if n = 128 then 0
  else n

/-- The part of `decode_reply` after the sanity tests ("Figure out how far
the packet travelled" onwards).  `now` is what `GetTickCount()` returns. -/
def decode_tail (now : Nat) (reply : Buf) (pr : pingreq) : Nat × pingreq :=
  let header_len := ip_h_len reply * 4
  let pr1 := { pr with seq := icmp_seq reply header_len }
  let pr2 := { pr1 with hops := nHops (ip_ttl reply) }
  let pr3 := { pr2 with ttl := ip_ttl reply }
  if icmp_type reply header_len = ICMP_TTL_EXPIRE then
    (ETTL_EXPIRED ^^^ (ICMP_TTL_EXPIRE &&& 0xffff), pr3)
  else
    (WSASUCCESS,
      { pr3 with timems := (now + 2 ^ 32 - icmp_timestamp reply header_len) % 2 ^ 32 })

/-- The function `decode_reply(reply, bytes, from, pr)` with a non-null `pr`:
the return code and the updated record.  `pid` is what
`GetCurrentProcessId()` returns, `now` what `GetTickCount()` returns. -/
def decode_reply (pid now : Nat) (reply : Buf) (bytes : Int) (pr : pingreq) : Nat × pingreq :=
  let header_len := ip_h_len reply * 4
  if bytes < ((header_len + ICMP_MIN : Nat) : Int) then
    (ETOO_FEW_BYTES ^^^ (bytes % 2 ^ 32).toNat, pr)
  else if icmp_type reply header_len ≠ ICMP_ECHO_REPLY then
    if icmp_type reply header_len ≠ ICMP_TTL_EXPIRE then
      if icmp_type reply header_len = ICMP_DEST_UNREACH then
        (WSAEHOSTUNREACH, pr)
      else
        (EUNKNOWN_ICMP_PACKET ^^^ (icmp_type reply header_len &&& 0xffff), pr)
    else
      decode_tail now reply pr
  else if icmp_id reply header_len ≠ session_id pid then
    (WSATRY_AGAIN, pr)
  else
    decode_tail now reply pr

/-! ## The reply decoder as the specification words it -/

/-- The outcomes of the specification's reply decoder. -/
inductive Outcome where
  | Accepted
  | TtlExceeded
  | Retry
  | Unreachable
  | Malformed
  | UnknownType (typeCode : Nat)
deriving DecidableEq, Repr

/-- The classification of the specification (section 4.4, steps 1 to 3). -/
def spec_classify (sessionId : Nat) (frame : Buf) (bytesRead : Int) : Outcome :=
  let off := 4 * ip_h_len frame
  if bytesRead < ((off + 8 : Nat) : Int) then Outcome.Malformed
  else if icmp_type frame off = 0 then
    if icmp_id frame off ≠ sessionId then Outcome.Retry else Outcome.Accepted
  else if icmp_type frame off = 11 then Outcome.TtlExceeded
  else if icmp_type frame off = 3 then Outcome.Unreachable
  else Outcome.UnknownType (icmp_type frame off)

/-- Reading an outcome back from a return code of `decode_reply`: the three
plain codes by value, the three error classes by their high 16 bits, the
type code from the low 16 bits. -/
def outcome_of_code (rc : Nat) : Option Outcome :=
  if rc = WSASUCCESS then some Outcome.Accepted
  else if rc = WSATRY_AGAIN then some Outcome.Retry
  else if rc = WSAEHOSTUNREACH then some Outcome.Unreachable
  else if rc &&& 0xffff0000 = ETOO_FEW_BYTES then some Outcome.Malformed
  else if rc &&& 0xffff0000 = ETTL_EXPIRED then some Outcome.TtlExceeded
  else if rc &&& 0xffff0000 = EUNKNOWN_ICMP_PACKET then some (Outcome.UnknownType (rc &&& 0xffff))
  else none

/-! ## Building and sending a frame (rawping.cpp) -/

/-- The effect of `memcpy(buf + off, data, data.length)`. -/
def write_bytes (buf : Buf) (off : Nat) : List Nat → Buf
  | [] => buf
  | d :: ds => write_bytes (buf.set off d) (off + 1) ds

/-- Storing a `USHORT` at offset `off` (host order). -/
def write_u16 (buf : Buf) (off v : Nat) : Buf :=
  write_bytes buf off [v % 256, v / 256 % 256]

/-- Storing a `ULONG` at offset `off` (host order). -/
def write_u32 (buf : Buf) (off v : Nat) : Buf :=
  write_bytes buf off [v % 256, v / 256 % 256, v / 65536 % 256, v / 16777216 % 256]

/-- Modelled from the spec: the word sum inside `ip_checksum` (not among the
sources).  Section 4.1: the buffer is treated as a sequence of 16-bit words,
a last odd byte being zero-padded; the words are read in host order, the
order in which the source stores the result in `icmp_hdr->checksum`. -/
def word_sum : List Nat → Nat
  | [] => 0
  | [a] => a % 256
  | a :: b :: rest => (a % 256 + 256 * (b % 256)) + word_sum rest

/-- Modelled from the spec: one end-around carry fold of a sum into 16 bits
(section 4.1, "sums with end-around carry folding"). -/
def fold16 (s : Nat) : Nat := s % 65536 + s / 65536

/-- Modelled from the spec: `ip_checksum` (declared in ip_checksum.h, defined in
ip_checksum.cpp; neither is among the sources).  Section 4.1: the buffer is
treated as a sequence of 16-bit words (last odd byte, if any, zero-padded),
summed with end-around carry folding, and the one's complement is returned.
Two folds bring any sum below `2^32` into 16 bits. -/
def ip_checksum (buffer : Buf) (size : Int) : Nat :=
  (65535 - fold16 (fold16 (word_sum (buffer.take size.toNat))) % 65536) % 65536

/-- The bytes of `const unsigned long int deadmeat = 0xDEADBEEF` in memory. -/
def deadmeat : List Nat := [0xEF, 0xBE, 0xAD, 0xDE]

/-- The padding loop of `init_ping_packet`:
`while (bytes_left > 0) { memcpy(datapart, &deadmeat, min(4, bytes_left)); ... }`.
Every turn takes 4 off `bytes_left`, so `fuel = bytes_left` turns are enough. -/
def fill_loop : Nat → Buf → Nat → Int → Buf
  | 0, buf, _, _ => buf
  | fuel + 1, buf, datapart, bytes_left =>
    if bytes_left > 0 then
      fill_loop fuel
        (write_bytes buf datapart (deadmeat.take (min (4 : Int) bytes_left).toNat))
        (datapart + 4) (bytes_left - 4)
    else buf

/-- The function `init_ping_packet(icmp_hdr, packet_size, seq_no, pr)`, the buffer
part.  `pid` is what `GetCurrentProcessId()` returns, `now` what
`GetTickCount()` returns. -/
def init_ping_packet (icmp_hdr : Buf) (packet_size seq_no : Int) (pid now : Nat) : Buf :=
  let b1 := icmp_hdr.set 0 ICMP_ECHO_REQUEST
  let b2 := b1.set 1 0
  let b3 := write_u16 b2 2 0
  let b4 := write_u16 b3 4 (session_id pid)
  let b5 := write_u16 b4 6 (seq_no % 65536).toNat
  let b6 := write_u32 b5 8 (now % 2 ^ 32)
  let bytes_left : Int := packet_size - sizeof_ICMPHeader
  let b7 := fill_loop bytes_left.toNat b6 sizeof_ICMPHeader bytes_left
  write_u16 b7 2 (ip_checksum b7 packet_size)

/-- The record part of `init_ping_packet`: `pr->packet_size = packet_size`. -/
def init_ping_packet_pr (packet_size : Int) (pr : pingreq) : pingreq :=
  { pr with packet_size := (packet_size % 2 ^ 32).toNat }

/-- What `sendto` reports: the bytes written, or `SOCKET_ERROR` together with
the code `WSAGetLastError()` then returns. -/
inductive SendResult where
  | ok (bwrote : Nat)
  | error (code : Nat)
deriving DecidableEq, Repr

/-- What `recvfrom` reports: the datagram it stored in the buffer (`bread` is
its length), or `SOCKET_ERROR` together with the code `WSAGetLastError()` then
returns; a failed receive leaves the buffer as it was. -/
inductive RecvResult where
  | ok (data : Buf)
  | error (code : Nat)
deriving DecidableEq, Repr

/-- The first statement of `send_ping`: `send_buf->timestamp = GetTickCount()`. -/
def send_ping_stamp (send_buf : Buf) (now : Nat) : Buf :=
  write_u32 send_buf 8 (now % 2 ^ 32)

/-- The bytes `sendto(sd, (char*)send_buf, packet_size, ...)` is handed. -/
def sent_frame (send_buf : Buf) (packet_size : Int) : Buf :=
  send_buf.take packet_size.toNat

/-- The function `send_ping(sd, dest, send_buf, packet_size, pr)`: return code,
buffer and record.  `r` is the outcome of `sendto`, `now` what
`GetTickCount()` returns. -/
def send_ping (r : SendResult) (now : Nat) (send_buf : Buf) (pr : pingreq) :
    Nat × Buf × pingreq :=
  match r with
  | SendResult.error code => (code, send_ping_stamp send_buf now, pr)
  | SendResult.ok bwrote => (WSASUCCESS, send_ping_stamp send_buf now, { pr with bytes_sent := bwrote })

/-- The frame that reaches the socket write for one attempt: `init_ping_packet`
at clock reading `t_build`, then `send_ping` at clock reading `t_send`. -/
def transmitted_frame (send_buf : Buf) (packet_size seq_no : Int) (pid t_build t_send : Nat) :
    Buf :=
  sent_frame (send_ping_stamp (init_ping_packet send_buf packet_size seq_no pid t_build) t_send)
    packet_size

/-- The function `recv_ping(sd, source, recv_buf, packet_size, pr)`: return code,
buffer and record.  `r` is the outcome of `recvfrom`. -/
def recv_ping (r : RecvResult) (recv_buf : Buf) (pr : pingreq) : Nat × Buf × pingreq :=
  match r with
  | RecvResult.error code => (code, recv_buf, pr)
  | RecvResult.ok data =>
    (WSASUCCESS, data ++ recv_buf.drop data.length, { pr with bytes_recv := data.length })

/-- The function `allocate_buffers`, its return code: `send_ok` and `recv_ok`
say whether the two `new char[...]` gave a non-null pointer. -/
def allocate_buffers (send_ok recv_ok : Bool) : Nat :=
  if send_ok = false then EBUFFER_ALLOCATION_FAILED
  else if recv_ok = false then EBUFFER_ALLOCATION_FAILED
  else WSASUCCESS

/-! ## The session: `winping::ping` (winping.cpp) -/

/-- Everything `winping::ping` takes from outside its own code: the two
constants of winping.h (which is not among the sources), the process id, the
outcome of the socket-library calls, the clock, and the contents of freshly
allocated memory. -/
structure Env where
  /-- The constant `PING_INFINITE` of winping.h. -/
  PING_INFINITE : Int
  /-- The constant `REQUEST_TIMEOUT` of winping.h, as a `DWORD`. -/
  REQUEST_TIMEOUT : Nat
  /-- What `GetCurrentProcessId()` returns. -/
  pid : Nat
  /-- What `WSAStartup` returns. -/
  wsa_startup : Nat
  /-- The field `wsaData.wVersion` after `WSAStartup`. -/
  wVersion : Nat
  /-- What `setup_for_ping` returns (socket creation, socket options, resolver). -/
  setup_rc : Nat
  /-- Whether `new char[packet_size]` gives a non-null pointer. -/
  send_alloc : Bool
  /-- Whether `new char[MAX_PING_PACKET_SIZE]` gives a non-null pointer. -/
  recv_alloc : Bool
  /-- The byte at each offset of the freshly allocated send buffer. -/
  send_mem : Nat → Nat
  /-- The byte at each offset of the freshly allocated receive buffer. -/
  recv_mem : Nat → Nat
  /-- What `GetTickCount()` returns in `init_ping_packet`, per loop turn. -/
  tick_build : Nat → Nat
  /-- What `GetTickCount()` returns in `send_ping`, per loop turn. -/
  tick_send : Nat → Nat
  /-- What `GetTickCount()` returns in `decode_reply`, per `recvfrom` call. -/
  tick_decode : Nat → Nat
  /-- The outcome of `sendto`, per loop turn. -/
  send : Nat → SendResult
  /-- The outcome of `recvfrom`, per call. -/
  recv : Nat → RecvResult

/-- What `winping::ping` does to the outside, in order. -/
inductive Event where
  | WSAStartup
  | setup_for_ping
  | sendto (frame : Buf)
  | recvfrom
  | WSACleanup
deriving DecidableEq, Repr

/-- The local state of `winping::ping` inside its attempt loop.  Three fields
are bookkeeping of the model: `iter` counts the loop turns started, `nrecv` the
`recvfrom` calls made, and `outcomes` lists the value `rc` had at the end of
each turn. -/
structure Session where
  rc : Nat
  attempt : Int
  iter : Nat
  nrecv : Nat
  send_buf : Buf
  recv_buf : Buf
  pr : pingreq
  pings : List pingreq
  log : List Event
  outcomes : List Nat

/-- The receive loop `while(true) { ... }` of `winping::ping`; `none` when the
loop has not left after `fuel` turns. -/
def recv_loop (E : Env) (packet_size seq_no : Int) : Nat → Session → Option Session
  | 0, _ => none
  | fuel + 1, s =>
    let r := recv_ping (E.recv s.nrecv) s.recv_buf s.pr
    let s1 : Session :=
      { s with rc := r.1, recv_buf := r.2.1, pr := r.2.2, nrecv := s.nrecv + 1,
               log := s.log ++ [Event.recvfrom] }
    if s1.rc ≠ WSASUCCESS then
      let header_len := ip_h_len s1.recv_buf * 4
      if (icmp_seq s1.recv_buf header_len : Int) ≠ seq_no then
        recv_loop E packet_size seq_no fuel s1
      else
        some s1
    else
      let d := decode_reply E.pid (E.tick_decode s.nrecv) s1.recv_buf packet_size s1.pr
      let s2 : Session := { s1 with rc := d.1, pr := d.2 }
      if s2.rc ≠ WSATRY_AGAIN then some s2
      else recv_loop E packet_size seq_no fuel s2

/-- The condition of the attempt loop,
`(rc == WSASUCCESS || rc == WSAETIMEDOUT) && attempts == PING_INFINITE ? PING_INFINITE : attempt++ < attempts`,
which C++ reads as `((...) && attempts == PING_INFINITE) ? PING_INFINITE : (attempt++ < attempts)`:
whether the loop goes on, and the state after `attempt++`. -/
def loop_cond (E : Env) (attempts : Int) (s : Session) : Bool × Session :=
  if (s.rc = WSASUCCESS ∨ s.rc = WSAETIMEDOUT) ∧ attempts = E.PING_INFINITE then
    (decide (E.PING_INFINITE ≠ 0), s)
  else
    (decide (s.attempt < attempts), { s with attempt := s.attempt + 1 })

/-- The first half of a turn of the attempt loop: `init_ping_packet`, then
`rc = send_ping(...)`. -/
def attempt_send (E : Env) (packet_size seq_no : Int) (s : Session) : Session :=
  let buf1 := init_ping_packet s.send_buf packet_size seq_no E.pid (E.tick_build s.iter)
  let pr1 := init_ping_packet_pr packet_size s.pr
  let r := send_ping (E.send s.iter) (E.tick_send s.iter) buf1 pr1
  { s with rc := r.1, send_buf := r.2.1, pr := r.2.2, iter := s.iter + 1,
           log := s.log ++ [Event.sendto (sent_frame r.2.1 packet_size)] }

/-- The statement `rc == WSAETIMEDOUT ? (pr.bytes_recv = REQUEST_TIMEOUT) : 0`. -/
def mark_timeout (E : Env) (s : Session) : Session :=
  if s.rc = WSAETIMEDOUT then
    { s with pr := { s.pr with bytes_recv := E.REQUEST_TIMEOUT } }
  else s

/-- The end of a turn of the attempt loop:
`if (attempts != PING_INFINITE) { ... ps->pings.push_back(tmp); }`,
`tmp` being a copy of `pr`; the model also notes `rc` in `outcomes`. -/
def attempt_record (E : Env) (attempts : Int) (s : Session) : Session :=
  if attempts ≠ E.PING_INFINITE then
    { s with pings := s.pings ++ [s.pr], outcomes := s.outcomes ++ [s.rc] }
  else { s with outcomes := s.outcomes ++ [s.rc] }

/-- One turn of the attempt loop: build, send, receive until decided, record;
`none` when the receive loop has not left after `rfuel` turns. -/
def attempt_body (E : Env) (packet_size attempts seq_no : Int) (rfuel : Nat) (s : Session) :
    Option Session :=
  if (attempt_send E packet_size seq_no s).rc = WSASUCCESS then
    match recv_loop E packet_size seq_no rfuel (attempt_send E packet_size seq_no s) with
    | none => none
    | some s2 => some (attempt_record E attempts (mark_timeout E s2))
  else some (attempt_record E attempts (attempt_send E packet_size seq_no s))

/-- The attempt loop `while (...) { ... }` of `winping::ping`; `none` when it has
not left after `fuel` turns or a receive loop has not left after `rfuel` turns. -/
def ping_loop (E : Env) (packet_size attempts seq_no : Int) (rfuel : Nat) :
    Nat → Session → Option Session
  | 0, _ => none
  | fuel + 1, s =>
    let c := loop_cond E attempts s
    if c.1 = true then
      match attempt_body E packet_size attempts seq_no rfuel c.2 with
      | none => none
      | some s1 => ping_loop E packet_size attempts seq_no rfuel fuel s1
    else some c.2

/-- What a call of `winping::ping` leaves behind: the value returned, the
member `err` that `returnc` stored, the list `ps->pings` (empty before the
call), the calls made to the outside, and the value `rc` had at the end of
each turn of the attempt loop. -/
structure PingResult where
  rc : Nat
  err : Nat
  pings : List pingreq
  log : List Event
  outcomes : List Nat
deriving DecidableEq, Repr

/-- The function `winping::returnc`, together with the rest of the result. -/
def returnc (rc : Nat) (pings : List pingreq) (log : List Event) (outcomes : List Nat) :
    PingResult :=
  { rc := rc, err := rc, pings := pings, log := log, outcomes := outcomes }

/-- The error class that `winping::print_error` switches on, `err & 0xefff0000`. -/
def err_class (err : Nat) : Nat := err &&& 0xefff0000

/-- The frames handed to `sendto`, in order. -/
def sent_frames : List Event → List Buf
  | [] => []
  | Event.sendto frame :: es => frame :: sent_frames es
  | _ :: es => sent_frames es

/-- The statement `packet_size = max(sizeof(ICMPHeader), min(MAX_PING_DATA_SIZE, (unsigned int)packet_size))`
with the `min` / `max` macros of the Windows headers, `(a < b) ? a : b` and
`(a > b) ? a : b`, evaluated on unsigned operands. -/
def clamp_packet_size (packet_size : Int) : Int :=
  let u : Nat := (packet_size % 2 ^ 32).toNat
  let m : Nat := if MAX_PING_DATA_SIZE < u then MAX_PING_DATA_SIZE else u
  let p : Nat := if sizeof_ICMPHeader > m then sizeof_ICMPHeader else m
  (p : Int)

/-- A freshly allocated buffer, `new char[size]`: `size` bytes whose contents
`mem` are whatever the allocator left there. -/
def fresh_buf (mem : Nat → Nat) (size : Nat) : Buf := (List.range' 0 size).map mem

/-- The session state on entry to the attempt loop. -/
def Session.start (E : Env) (packet_size : Int) : Session :=
  { rc := WSASUCCESS, attempt := 0, iter := 0, nrecv := 0,
    send_buf := fresh_buf E.send_mem packet_size.toNat,
    recv_buf := fresh_buf E.recv_mem MAX_PING_PACKET_SIZE,
    pr := pingreq.init, pings := [],
    log := [Event.WSAStartup, Event.setup_for_ping], outcomes := [] }

/-- The function `winping::ping(host, ps, packet_size, ttl, attempts, timeout)`
(`timeout` only reaches `setup_for_ping`); `none` when one of its loops has
not left within `fuel` turns. -/
def ping (E : Env) (host : String) (packet_size ttl attempts : Int) (fuel : Nat) :
    Option PingResult :=
  if host.isEmpty = true then
    some (returnc EINVALID_HOSTNAME [] [] [])
  else if packet_size = 0 ∨ packet_size > MAX_PING_DATA_SIZE then
    some (returnc (EPACKET_SIZE_OUT_OF_BOUNDS ^^^ (packet_size % 65536).toNat) [] [] [])
  else if ttl = 0 ∨ ttl > MAX_TTL then
    some (returnc (ETTL_SIZE_OUT_OF_BOUNDS ^^^ (ttl % 65536).toNat) [] [] [])
  else if E.wsa_startup ≠ 0 then
    some (returnc (EWINSOCK_VERSION ^^^ E.wVersion) [] [Event.WSAStartup] [])
  else
    let packet_size1 := clamp_packet_size packet_size
    if E.setup_rc ≠ WSASUCCESS then
      some (returnc E.setup_rc [] [Event.WSAStartup, Event.setup_for_ping, Event.WSACleanup] [])
    else
      let seq_no : Int := 0
      if allocate_buffers E.send_alloc E.recv_alloc ≠ WSASUCCESS then
        some (returnc (allocate_buffers E.send_alloc E.recv_alloc) []
          [Event.WSAStartup, Event.setup_for_ping, Event.WSACleanup] [])
      else
        match ping_loop E packet_size1 attempts seq_no fuel fuel (Session.start E packet_size1) with
        | none => none
        | some s =>
          let rc := if s.rc = WSAETIMEDOUT then WSASUCCESS else s.rc
          some (returnc rc s.pings (s.log ++ [Event.WSACleanup]) s.outcomes)

/-- The session gets as far as its attempt loop: the arguments pass the three
checks and `WSAStartup`, `setup_for_ping` and `allocate_buffers` succeed. -/
def setup_succeeds (E : Env) (host : String) (packet_size ttl : Int) : Prop :=
  host.isEmpty = false ∧ packet_size ≠ 0 ∧ packet_size ≤ MAX_PING_DATA_SIZE ∧
  ttl ≠ 0 ∧ ttl ≤ MAX_TTL ∧
  E.wsa_startup = 0 ∧ E.setup_rc = WSASUCCESS ∧ E.send_alloc = true ∧ E.recv_alloc = true

/-! ## Sample frames -/

/-- A received frame: a 20-byte IP header (version 4, `h_len` 5, the given
TTL, protocol 1, 127.0.0.1 to 127.0.0.1) followed by a 12-byte ICMP header
with the given type, identifier, sequence number and timestamp. -/
def mk_reply (ty ttl id seq ts : Nat) : Buf :=
  [0x45, 0, 32, 0, 0, 0, 0, 0, ttl, 1, 0, 0, 127, 0, 0, 1, 127, 0, 0, 1,
   ty, 0, 0, 0, id % 256, id / 256, seq % 256, seq / 256,
   ts % 256, ts / 256 % 256, ts / 65536 % 256, ts / 16777216]

/-! ## Sample environments -/

/-- A responsive loopback-like target: every send writes 32 bytes and every
receive yields an echo reply of this session (identifier 7, TTL 128).  The
two constants of winping.h are given the values -1 and 0xffffffff. -/
def env_loopback : Env :=
  { PING_INFINITE := -1, REQUEST_TIMEOUT := 0xffffffff, pid := 7,
    wsa_startup := 0, wVersion := 0x0202, setup_rc := WSASUCCESS,
    send_alloc := true, recv_alloc := true,
    send_mem := fun _ => 0, recv_mem := fun _ => 0,
    tick_build := fun _ => 1000, tick_send := fun _ => 1000, tick_decode := fun _ => 1010,
    send := fun _ => SendResult.ok 32,
    recv := fun _ => RecvResult.ok (mk_reply 0 128 7 0 1000) }

/-- A dark address: every receive fails with `WSAETIMEDOUT`; the freshly
allocated receive buffer holds the byte 0xCD throughout (the fill pattern of
the MSVC debug heap). -/
def env_dark : Env :=
  { env_loopback with
    recv := fun _ => RecvResult.error WSAETIMEDOUT
    recv_mem := fun _ => 0xCD }

/-- A dark address as `env_dark`, the freshly allocated receive buffer being
all zero. -/
def env_dark_zeroed : Env :=
  { env_loopback with recv := fun _ => RecvResult.error WSAETIMEDOUT }

/-- The first send fails with `WSAENETUNREACH` (10051); later sends succeed and
are answered as in `env_loopback`. -/
def env_send_fails_once : Env :=
  { env_loopback with
    send := fun n => if n = 0 then SendResult.error 10051 else SendResult.ok 32 }

/-- Every receive yields a TTL-exceeded notification (type 11) from a router. -/
def env_ttl_exceeded : Env :=
  { env_loopback with recv := fun _ => RecvResult.ok (mk_reply 11 250 7 0 0) }

/-- Every receive yields a destination-unreachable message (type 3). -/
def env_unreachable : Env :=
  { env_loopback with recv := fun _ => RecvResult.ok (mk_reply 3 250 7 0 0) }

/-- Every receive yields a truncated datagram: the first 24 bytes of an echo reply (the
IP header and 4 bytes of the ICMP header).  The freshly allocated receive buffer holds
the byte 7 at offset 24 and 0 elsewhere. -/
def env_truncated : Env :=
  { env_loopback with
    recv := fun _ => RecvResult.ok ((mk_reply 0 128 7 0 1000).take 24)
    recv_mem := fun i => if i = 24 then 7 else 0 }

/-! # Theorems -/

set_option maxRecDepth 1000000

theorem byteAt_lt (b : Buf) (i : Nat) : byteAt b i < 256 := by
  unfold byteAt; omega

theorem unknown_code_facts : ∀ t, t < 256 → (t = 0 ∨ t = 3 ∨ t = 11 ∨
    (t &&& 0xffff = t ∧ (EUNKNOWN_ICMP_PACKET ^^^ t) &&& 0xffff = t ∧
      outcome_of_code (EUNKNOWN_ICMP_PACKET ^^^ t) = some (Outcome.UnknownType t))) := by
  decide

theorem malformed_code_facts : ∀ b, b < 68 →
    outcome_of_code (ETOO_FEW_BYTES ^^^ b) = some Outcome.Malformed := by
  decide



/-! ### The branches of `decode_reply` -/

theorem decode_reply_short (pid now : Nat) (reply : Buf) (bytes : Int) (pr : pingreq)
    (h : bytes < ((ip_h_len reply * 4 + ICMP_MIN : Nat) : Int)) :
    decode_reply pid now reply bytes pr = (ETOO_FEW_BYTES ^^^ (bytes % 2 ^ 32).toNat, pr) := by
  unfold decode_reply
  simp only [if_pos h]

theorem decode_reply_long (pid now : Nat) (reply : Buf) (bytes : Int) (pr : pingreq)
    (h : ((ip_h_len reply * 4 + ICMP_MIN : Nat) : Int) ≤ bytes) :
    decode_reply pid now reply bytes pr =
      if icmp_type reply (ip_h_len reply * 4) ≠ ICMP_ECHO_REPLY then
        if icmp_type reply (ip_h_len reply * 4) ≠ ICMP_TTL_EXPIRE then
          if icmp_type reply (ip_h_len reply * 4) = ICMP_DEST_UNREACH then
            (WSAEHOSTUNREACH, pr)
          else
            (EUNKNOWN_ICMP_PACKET ^^^ (icmp_type reply (ip_h_len reply * 4) &&& 0xffff), pr)
        else
          decode_tail now reply pr
      else if icmp_id reply (ip_h_len reply * 4) ≠ session_id pid then
        (WSATRY_AGAIN, pr)
      else
        decode_tail now reply pr := by
  unfold decode_reply
  simp only [if_neg (not_lt.mpr h)]

theorem decode_tail_ttl (now : Nat) (reply : Buf) (pr : pingreq)
    (h : icmp_type reply (ip_h_len reply * 4) = ICMP_TTL_EXPIRE) :
    decode_tail now reply pr =
      (ETTL_EXPIRED ^^^ (ICMP_TTL_EXPIRE &&& 0xffff),
        { pr with seq := icmp_seq reply (ip_h_len reply * 4), hops := nHops (ip_ttl reply),
                  ttl := ip_ttl reply }) := by
  unfold decode_tail
  simp only [if_pos h]

theorem decode_tail_echo (now : Nat) (reply : Buf) (pr : pingreq)
    (h : icmp_type reply (ip_h_len reply * 4) = ICMP_ECHO_REPLY) :
    decode_tail now reply pr =
      (WSASUCCESS,
        { pr with seq := icmp_seq reply (ip_h_len reply * 4), hops := nHops (ip_ttl reply),
                  ttl := ip_ttl reply,
                  timems := (now + 2 ^ 32 - icmp_timestamp reply (ip_h_len reply * 4)) % 2 ^ 32 }) := by
  unfold decode_tail
  have h2 : icmp_type reply (ip_h_len reply * 4) ≠ ICMP_TTL_EXPIRE := by
    rw [h]; decide
  simp only [if_neg h2]

/-- C1: for a byte count in [0, 65535], the return code of decode_reply is the one the
specification's classification prescribes, and the classification (with the type code of
an unknown type) can be read back from the return code. -/
theorem decode_reply_classification (pid now : Nat) (reply : Buf) (bytes : Int) (pr : pingreq)
    (h0 : 0 ≤ bytes) (h1 : bytes ≤ 65535) :
    (bytes < ((4 * ip_h_len reply + 8 : Nat) : Int) →
        (decode_reply pid now reply bytes pr).1 = ETOO_FEW_BYTES ^^^ bytes.toNat) ∧
    (((4 * ip_h_len reply + 8 : Nat) : Int) ≤ bytes →
      (icmp_type reply (4 * ip_h_len reply) = ICMP_ECHO_REPLY →
        icmp_id reply (4 * ip_h_len reply) ≠ session_id pid →
          (decode_reply pid now reply bytes pr).1 = WSATRY_AGAIN) ∧
      (icmp_type reply (4 * ip_h_len reply) = ICMP_ECHO_REPLY →
        icmp_id reply (4 * ip_h_len reply) = session_id pid →
          (decode_reply pid now reply bytes pr).1 = WSASUCCESS) ∧
      (icmp_type reply (4 * ip_h_len reply) = ICMP_TTL_EXPIRE →
          (decode_reply pid now reply bytes pr).1 = ETTL_EXPIRED ^^^ ICMP_TTL_EXPIRE) ∧
      (icmp_type reply (4 * ip_h_len reply) = ICMP_DEST_UNREACH →
          (decode_reply pid now reply bytes pr).1 = WSAEHOSTUNREACH) ∧
      (icmp_type reply (4 * ip_h_len reply) ≠ ICMP_ECHO_REPLY →
        icmp_type reply (4 * ip_h_len reply) ≠ ICMP_TTL_EXPIRE →
        icmp_type reply (4 * ip_h_len reply) ≠ ICMP_DEST_UNREACH →
          (decode_reply pid now reply bytes pr).1
              = EUNKNOWN_ICMP_PACKET ^^^ icmp_type reply (4 * ip_h_len reply) ∧
          (decode_reply pid now reply bytes pr).1 &&& 0xffff
              = icmp_type reply (4 * ip_h_len reply))) ∧
    outcome_of_code (decode_reply pid now reply bytes pr).1
      = some (spec_classify (session_id pid) reply bytes) := by
  have hcomm : 4 * ip_h_len reply = ip_h_len reply * 4 := Nat.mul_comm _ _
  have hlen : ip_h_len reply < 16 := by unfold ip_h_len; omega
  have ht : icmp_type reply (ip_h_len reply * 4) < 256 := byteAt_lt _ _
  obtain ⟨b, rfl⟩ := Int.eq_ofNat_of_zero_le h0
  have hmod : ((b : Int) % 2 ^ 32).toNat = b := by omega
  rw [hcomm]
  unfold spec_classify
  simp only [hcomm]
  by_cases hb : (b : Int) < ((ip_h_len reply * 4 + 8 : Nat) : Int)
  · have hb68 : b < 68 := by omega
    rw [decode_reply_short pid now reply b pr hb, hmod]
    refine ⟨fun _ => rfl, fun h => absurd hb (not_lt.mpr h), ?_⟩
    simp only [if_pos hb]
    exact malformed_code_facts b hb68
  · have hb2 : ((ip_h_len reply * 4 + ICMP_MIN : Nat) : Int) ≤ (b : Int) := not_lt.mp hb
    rw [decode_reply_long pid now reply b pr hb2]
    simp only [if_neg hb]
    refine ⟨fun h => absurd h hb, fun _ => ?_, ?_⟩
    · refine ⟨?_, ?_, ?_, ?_, ?_⟩
      · intro h1 h2
        simp [h1, h2]
      · intro h1 h2
        simp [h1, h2, decode_tail_echo now reply pr h1]
      · intro h1
        have : ICMP_TTL_EXPIRE ≠ ICMP_ECHO_REPLY := by decide
        simp only [h1, decode_tail_ttl now reply pr h1, ne_eq, this, not_false_eq_true, if_true,
          not_true_eq_false, if_false]
        decide
      · intro h1
        have e1 : ICMP_DEST_UNREACH ≠ ICMP_ECHO_REPLY := by decide
        have e2 : ICMP_DEST_UNREACH ≠ ICMP_TTL_EXPIRE := by decide
        simp [h1, e1, e2]
      · intro h1 h2 h3
        simp only [ne_eq, h1, h2, h3, not_false_eq_true, if_true, if_false]
        rcases unknown_code_facts _ ht with h | h | h | ⟨ha, hb, _⟩
        · exact absurd h h1
        · exact absurd h h3
        · exact absurd h h2
        · rw [ha]; exact ⟨rfl, hb⟩
    · by_cases t0 : icmp_type reply (ip_h_len reply * 4) = 0
      · have t0' : icmp_type reply (ip_h_len reply * 4) = ICMP_ECHO_REPLY := t0
        by_cases hid : icmp_id reply (ip_h_len reply * 4) = session_id pid
        · simp only [if_neg (not_not_intro t0'), if_neg (not_not_intro hid), if_pos t0,
            decode_tail_echo now reply pr t0']
          exact (by decide : outcome_of_code WSASUCCESS = some Outcome.Accepted)
        · simp only [if_neg (not_not_intro t0'), if_pos hid, if_pos t0]
          exact (by decide : outcome_of_code WSATRY_AGAIN = some Outcome.Retry)
      · have t0' : icmp_type reply (ip_h_len reply * 4) ≠ ICMP_ECHO_REPLY := t0
        by_cases t11 : icmp_type reply (ip_h_len reply * 4) = 11
        · have t11' : icmp_type reply (ip_h_len reply * 4) = ICMP_TTL_EXPIRE := t11
          simp only [if_pos t0', if_neg (not_not_intro t11'), if_neg t0, if_pos t11,
            decode_tail_ttl now reply pr t11']
          exact (by decide : outcome_of_code (ETTL_EXPIRED ^^^ (ICMP_TTL_EXPIRE &&& 0xffff))
            = some Outcome.TtlExceeded)
        · have t11' : icmp_type reply (ip_h_len reply * 4) ≠ ICMP_TTL_EXPIRE := t11
          by_cases t3 : icmp_type reply (ip_h_len reply * 4) = 3
          · have t3' : icmp_type reply (ip_h_len reply * 4) = ICMP_DEST_UNREACH := t3
            simp only [if_pos t0', if_pos t11', if_pos t3', if_neg t0, if_neg t11, if_pos t3]
            exact (by decide : outcome_of_code WSAEHOSTUNREACH = some Outcome.Unreachable)
          · have t3' : icmp_type reply (ip_h_len reply * 4) ≠ ICMP_DEST_UNREACH := t3
            simp only [if_pos t0', if_pos t11', if_neg t3', if_neg t0, if_neg t11, if_neg t3]
            rcases unknown_code_facts _ ht with h | h | h | ⟨ha, _, hc⟩
            · exact absurd h t0
            · exact absurd h t3
            · exact absurd h t11
            · rw [ha]; exact hc

/-- Witness of C1: an echo reply of this session, 32 bytes read, is Accepted. -/
theorem decode_reply_classification_witness :
    (0 : Int) ≤ 32 ∧ (32 : Int) ≤ 65535 ∧
    outcome_of_code (decode_reply 7 1000 (mk_reply 0 128 7 0 990) 32 pingreq.init).1
      = some Outcome.Accepted :=
  ⟨by decide, by decide,
    (decode_reply_classification 7 1000 (mk_reply 0 128 7 0 990) 32 pingreq.init
      (by decide) (by decide)).2.2.trans (by decide)⟩

/-- C2, refuted as stated: frames whose identifier (9) is not the session's (7) and that
are not answered with Retry: a TTL-exceeded frame gets the TTL-expired code, a
destination-unreachable frame WSAEHOSTUNREACH, and an echo reply decoded with a byte
count of 12 the too-few-bytes code. -/
theorem decode_reply_foreign_id_not_retry :
    (icmp_id (mk_reply 11 250 9 0 0) (4 * ip_h_len (mk_reply 11 250 9 0 0)) ≠ session_id 7 ∧
      (decode_reply 7 1000 (mk_reply 11 250 9 0 0) 32 pingreq.init).1 ≠ WSATRY_AGAIN ∧
      (decode_reply 7 1000 (mk_reply 11 250 9 0 0) 32 pingreq.init).1
        = ETTL_EXPIRED ^^^ ICMP_TTL_EXPIRE) ∧
    (icmp_id (mk_reply 3 250 9 0 0) (4 * ip_h_len (mk_reply 3 250 9 0 0)) ≠ session_id 7 ∧
      (decode_reply 7 1000 (mk_reply 3 250 9 0 0) 32 pingreq.init).1 = WSAEHOSTUNREACH) ∧
    (icmp_id (mk_reply 0 128 9 0 990) (4 * ip_h_len (mk_reply 0 128 9 0 990)) ≠ session_id 7 ∧
      (decode_reply 7 1000 (mk_reply 0 128 9 0 990) 12 pingreq.init).1
        = ETOO_FEW_BYTES ^^^ 12) := by
  decide

/-- C2, amended: a frame that is long enough and whose embedded type is echo-reply yields
Retry when its identifier is not the session identifier, whatever its code, TTL, sequence,
timestamp and header length; the record is left untouched. -/
theorem decode_reply_echo_foreign_id_retry (pid now : Nat) (reply : Buf) (bytes : Int)
    (pr : pingreq)
    (hlong : ((4 * ip_h_len reply + 8 : Nat) : Int) ≤ bytes)
    (htype : icmp_type reply (4 * ip_h_len reply) = ICMP_ECHO_REPLY)
    (hid : icmp_id reply (4 * ip_h_len reply) ≠ session_id pid) :
    decode_reply pid now reply bytes pr = (WSATRY_AGAIN, pr) := by
  have hcomm : 4 * ip_h_len reply = ip_h_len reply * 4 := Nat.mul_comm _ _
  rw [hcomm] at hlong htype hid
  rw [decode_reply_long pid now reply bytes pr hlong]
  simp only [if_neg (not_not_intro htype), if_pos hid]

/-- Witness of the amended C2: an echo reply with identifier 9 in session 7. -/
theorem decode_reply_echo_foreign_id_retry_witness :
    decode_reply 7 1000 (mk_reply 0 128 9 0 990) 32 pingreq.init = (WSATRY_AGAIN, pingreq.init) :=
  decode_reply_echo_foreign_id_retry 7 1000 (mk_reply 0 128 9 0 990) 32 pingreq.init
    (by decide) (by decide) (by decide)

theorem icmp_timestamp_lt (b : Buf) (off : Nat) : icmp_timestamp b off < 2 ^ 32 := by
  unfold icmp_timestamp u32At
  have h0 := byteAt_lt b (off + 8)
  have h1 := byteAt_lt b (off + 8 + 1)
  have h2 := byteAt_lt b (off + 8 + 2)
  have h3 := byteAt_lt b (off + 8 + 3)
  omega

/-- C10: a long enough echo reply carrying the session identifier is Accepted; the record
gets the frame's sequence field, the IP header's TTL, the hop estimate of that TTL, and
the round-trip time (now - embedded timestamp) modulo 2^32; the other fields are kept. -/
theorem decode_reply_accepted (pid now : Nat) (reply : Buf) (bytes : Int) (pr : pingreq)
    (hlong : ((4 * ip_h_len reply + 8 : Nat) : Int) ≤ bytes)
    (htype : icmp_type reply (4 * ip_h_len reply) = ICMP_ECHO_REPLY)
    (hid : icmp_id reply (4 * ip_h_len reply) = session_id pid) :
    (decode_reply pid now reply bytes pr).1 = WSASUCCESS ∧
    (decode_reply pid now reply bytes pr).2.seq = icmp_seq reply (4 * ip_h_len reply) ∧
    (decode_reply pid now reply bytes pr).2.ttl = ip_ttl reply ∧
    (decode_reply pid now reply bytes pr).2.hops = nHops (ip_ttl reply) ∧
    (((decode_reply pid now reply bytes pr).2.timems : Nat) : Int)
      = ((now : Int) - (icmp_timestamp reply (4 * ip_h_len reply) : Int)) % 2 ^ 32 ∧
    (decode_reply pid now reply bytes pr).2.packet_size = pr.packet_size ∧
    (decode_reply pid now reply bytes pr).2.bytes_recv = pr.bytes_recv ∧
    (decode_reply pid now reply bytes pr).2.bytes_sent = pr.bytes_sent := by
  have hcomm : 4 * ip_h_len reply = ip_h_len reply * 4 := Nat.mul_comm _ _
  rw [hcomm] at hlong htype hid ⊢
  have hd : decode_reply pid now reply bytes pr = decode_tail now reply pr := by
    rw [decode_reply_long pid now reply bytes pr hlong]
    simp only [if_neg (not_not_intro htype), if_neg (not_not_intro hid)]
  rw [hd, decode_tail_echo now reply pr htype]
  refine ⟨rfl, rfl, rfl, rfl, ?_, rfl, rfl, rfl⟩
  have hts := icmp_timestamp_lt reply (ip_h_len reply * 4)
  show (((now + 2 ^ 32 - icmp_timestamp reply (ip_h_len reply * 4)) % 2 ^ 32 : Nat) : Int) = _
  omega

/-- Witness of C10: a reply stamped 4294967290 decoded at tick 4 (the tick counter
wrapped in between) has a round-trip time of 10 ms; TTL 128 gives 0 hops. -/
theorem decode_reply_accepted_witness :
    (decode_reply 7 4 (mk_reply 0 128 7 3 4294967290) 32 pingreq.init).1 = WSASUCCESS ∧
    (decode_reply 7 4 (mk_reply 0 128 7 3 4294967290) 32 pingreq.init).2.seq = 3 ∧
    (decode_reply 7 4 (mk_reply 0 128 7 3 4294967290) 32 pingreq.init).2.hops = 0 ∧
    (decode_reply 7 4 (mk_reply 0 128 7 3 4294967290) 32 pingreq.init).2.timems = 10 :=
  have h := decode_reply_accepted 7 4 (mk_reply 0 128 7 3 4294967290) 32 pingreq.init
    (by decide) (by decide) (by decide)
  ⟨h.1, h.2.1.trans (by decide), h.2.2.2.1.trans (by decide), by decide⟩

/-- C3 at a failing input: a 32-byte frame built at tick 1000 and sent at tick 1001 goes
out with a checksum field (0xe7f4, computed over the frame as built) that is not the
checksum of the transmitted frame with the field zeroed (0xe7f3); recomputing the
checksum over the transmitted frame gives 0xfffe, not zero.  With equal clock readings
the same frame verifies. -/
theorem transmitted_frame_checksum_stale :
    icmp_checksum (transmitted_frame (List.replicate 32 0) 32 0 7 1000 1001) 0 = 0xe7f4 ∧
    ip_checksum (write_u16 (transmitted_frame (List.replicate 32 0) 32 0 7 1000 1001) 2 0) 32
      = 0xe7f3 ∧
    ip_checksum (transmitted_frame (List.replicate 32 0) 32 0 7 1000 1001) 32 = 0xfffe ∧
    ip_checksum (transmitted_frame (List.replicate 32 0) 32 0 7 1000 1000) 32 = 0 := by
  decide

/-! ### Buffer writes -/

theorem length_write_bytes (data : List Nat) : ∀ (buf : Buf) (off : Nat),
    (write_bytes buf off data).length = buf.length := by
  induction data with
  | nil => intro buf off; rfl
  | cons d ds ih =>
    intro buf off
    simp only [write_bytes, ih, List.length_set]

theorem byteAt_set_ne (buf : Buf) (i j v : Nat) (h : i ≠ j) :
    byteAt (buf.set i v) j = byteAt buf j := by
  unfold byteAt
  rw [List.getD_eq_getElem?_getD, List.getD_eq_getElem?_getD, List.getElem?_set_ne h]

theorem byteAt_set_self (buf : Buf) (i v : Nat) (h : i < buf.length) :
    byteAt (buf.set i v) i = v % 256 := by
  unfold byteAt
  rw [List.getD_eq_getElem?_getD, List.getElem?_set_self h]
  rfl

theorem byteAt_write_bytes_of_lt (data : List Nat) : ∀ (buf : Buf) (off i : Nat), i < off →
    byteAt (write_bytes buf off data) i = byteAt buf i := by
  induction data with
  | nil => intro buf off i _; rfl
  | cons d ds ih =>
    intro buf off i h
    simp only [write_bytes]
    rw [ih _ _ _ (by omega), byteAt_set_ne _ _ _ _ (by omega)]

theorem byteAt_write_bytes_of_ge (data : List Nat) : ∀ (buf : Buf) (off i : Nat),
    off + data.length ≤ i → byteAt (write_bytes buf off data) i = byteAt buf i := by
  induction data with
  | nil => intro buf off i _; rfl
  | cons d ds ih =>
    intro buf off i h
    simp only [write_bytes]
    simp only [List.length_cons] at h
    rw [ih _ _ _ (by omega), byteAt_set_ne _ _ _ _ (by omega)]

theorem byteAt_write_bytes_head (d : Nat) (ds : List Nat) (buf : Buf) (off : Nat)
    (h : off < buf.length) : byteAt (write_bytes buf off (d :: ds)) off = d % 256 := by
  simp only [write_bytes]
  rw [byteAt_write_bytes_of_lt _ _ _ _ (by omega), byteAt_set_self _ _ _ h]

theorem u16At_write_u16 (buf : Buf) (off v : Nat) (h : off + 1 < buf.length) (hv : v < 65536) :
    u16At (write_u16 buf off v) off = v := by
  unfold u16At write_u16
  rw [byteAt_write_bytes_head _ _ _ _ (by omega)]
  simp only [write_bytes]
  rw [byteAt_set_self _ _ _ (by rw [List.length_set]; exact h)]
  omega

theorem u16At_write_bytes_of_lt (data : List Nat) (buf : Buf) (off i : Nat) (h : i + 1 < off) :
    u16At (write_bytes buf off data) i = u16At buf i := by
  unfold u16At
  rw [byteAt_write_bytes_of_lt _ _ _ _ (by omega), byteAt_write_bytes_of_lt _ _ _ _ (by omega)]

theorem u16At_write_bytes_of_ge (data : List Nat) (buf : Buf) (off i : Nat)
    (h : off + data.length ≤ i) : u16At (write_bytes buf off data) i = u16At buf i := by
  unfold u16At
  rw [byteAt_write_bytes_of_ge _ _ _ _ h, byteAt_write_bytes_of_ge _ _ _ _ (by omega)]

theorem length_fill_loop : ∀ (fuel : Nat) (buf : Buf) (datapart : Nat) (bytes_left : Int),
    (fill_loop fuel buf datapart bytes_left).length = buf.length := by
  intro fuel
  induction fuel with
  | zero => intro buf datapart bytes_left; rfl
  | succ n ih =>
    intro buf datapart bytes_left
    simp only [fill_loop]
    split
    · rw [ih, length_write_bytes]
    · rfl

theorem byteAt_fill_loop_of_lt : ∀ (fuel : Nat) (buf : Buf) (datapart : Nat) (bytes_left : Int)
    (i : Nat), i < datapart → byteAt (fill_loop fuel buf datapart bytes_left) i = byteAt buf i := by
  intro fuel
  induction fuel with
  | zero => intro buf datapart bytes_left i _; rfl
  | succ n ih =>
    intro buf datapart bytes_left i h
    simp only [fill_loop]
    split
    · rw [ih _ _ _ _ (by omega), byteAt_write_bytes_of_lt _ _ _ _ h]
    · rfl

theorem length_init_ping_packet (buf : Buf) (packet_size seq_no : Int) (pid now : Nat) :
    (init_ping_packet buf packet_size seq_no pid now).length = buf.length := by
  simp only [init_ping_packet, write_u16, write_u32, length_write_bytes, length_fill_loop,
    List.length_set]

theorem length_send_ping_stamp (buf : Buf) (now : Nat) :
    (send_ping_stamp buf now).length = buf.length := by
  simp only [send_ping_stamp, write_u32, length_write_bytes]

theorem byteAt_take (buf : Buf) (n i : Nat) (h : i < n) :
    byteAt (buf.take n) i = byteAt buf i := by
  unfold byteAt
  rw [List.getD_eq_getElem?_getD, List.getD_eq_getElem?_getD, List.getElem?_take_of_lt h]

theorem u16At_fill_loop_of_lt (fuel : Nat) (buf : Buf) (datapart : Nat) (bytes_left : Int)
    (i : Nat) (h : i + 1 < datapart) :
    u16At (fill_loop fuel buf datapart bytes_left) i = u16At buf i := by
  unfold u16At
  rw [byteAt_fill_loop_of_lt _ _ _ _ _ (by omega), byteAt_fill_loop_of_lt _ _ _ _ _ (by omega)]

theorem u16At_take (buf : Buf) (n i : Nat) (h : i + 1 < n) :
    u16At (buf.take n) i = u16At buf i := by
  unfold u16At
  rw [byteAt_take _ _ _ (by omega), byteAt_take _ _ _ (by omega)]

/-- The sequence field of a frame as it leaves for the socket is the `USHORT` that
`init_ping_packet` stored. -/
theorem icmp_seq_transmitted_frame (buf : Buf) (packet_size seq_no : Int)
    (pid t_build t_send : Nat) (hlen : 12 ≤ buf.length) (hps : 12 ≤ packet_size) :
    icmp_seq (transmitted_frame buf packet_size seq_no pid t_build t_send) 0
      = (seq_no % 65536).toNat := by
  have hn : 12 ≤ packet_size.toNat := by omega
  have hv : (seq_no % 65536).toNat < 65536 := by omega
  unfold icmp_seq transmitted_frame sent_frame
  rw [u16At_take _ _ _ (by omega)]
  unfold send_ping_stamp write_u32
  rw [u16At_write_bytes_of_lt _ _ _ _ (by omega)]
  unfold init_ping_packet
  simp only []
  rw [write_u16, u16At_write_bytes_of_ge _ _ _ _ (by simp),
    u16At_fill_loop_of_lt _ _ _ _ _ (by decide), write_u32,
    u16At_write_bytes_of_lt _ _ _ _ (by omega)]
  exact u16At_write_u16 _ 6 _ (by simp only [write_u16, length_write_bytes, List.length_set]; omega) hv

theorem length_transmitted_frame (buf : Buf) (packet_size seq_no : Int)
    (pid t_build t_send : Nat) (hlen : buf.length = packet_size.toNat) :
    (transmitted_frame buf packet_size seq_no pid t_build t_send).length = packet_size.toNat := by
  unfold transmitted_frame sent_frame
  rw [List.length_take, length_send_ping_stamp, length_init_ping_packet, hlen]
  exact Nat.min_self _

/-! ### The loops of `winping::ping` -/

theorem sent_frames_append (l1 l2 : List Event) :
    sent_frames (l1 ++ l2) = sent_frames l1 ++ sent_frames l2 := by
  induction l1 with
  | nil => rfl
  | cons e es ih =>
    cases e <;> simp [sent_frames, ih]

/-- What the receive loop leaves alone. -/
theorem recv_loop_frame (E : Env) (packet_size seq_no : Int) :
    ∀ (fuel : Nat) (s s' : Session), recv_loop E packet_size seq_no fuel s = some s' →
      s'.send_buf = s.send_buf ∧ s'.pings = s.pings ∧ sent_frames s'.log = sent_frames s.log ∧
      s'.outcomes = s.outcomes ∧ s'.iter = s.iter ∧ s'.attempt = s.attempt := by
  intro fuel
  induction fuel with
  | zero => intro s s' h; simp [recv_loop] at h
  | succ n ih =>
    intro s s' h
    simp only [recv_loop] at h
    split at h
    · split at h
      · have := ih _ _ h
        simpa [sent_frames_append, sent_frames] using this
      · cases h
        simp [sent_frames_append, sent_frames]
    · split at h
      · cases h
        simp [sent_frames_append, sent_frames]
      · have := ih _ _ h
        simpa [sent_frames_append, sent_frames] using this

theorem send_ping_buf (r : SendResult) (now : Nat) (b : Buf) (p : pingreq) :
    (send_ping r now b p).2.1 = send_ping_stamp b now := by
  cases r <;> rfl

theorem attempt_send_frame (E : Env) (packet_size seq_no : Int) (s : Session) :
    (attempt_send E packet_size seq_no s).send_buf = send_ping_stamp
        (init_ping_packet s.send_buf packet_size seq_no E.pid (E.tick_build s.iter))
        (E.tick_send s.iter) ∧
    sent_frames (attempt_send E packet_size seq_no s).log = sent_frames s.log ++
      [transmitted_frame s.send_buf packet_size seq_no E.pid (E.tick_build s.iter)
        (E.tick_send s.iter)] ∧
    (attempt_send E packet_size seq_no s).outcomes = s.outcomes ∧
    (attempt_send E packet_size seq_no s).iter = s.iter + 1 ∧
    (attempt_send E packet_size seq_no s).attempt = s.attempt ∧
    (attempt_send E packet_size seq_no s).pings = s.pings := by
  simp [attempt_send, send_ping_buf, sent_frames_append, sent_frames, transmitted_frame]

theorem mark_timeout_frame (E : Env) (s : Session) :
    (mark_timeout E s).rc = s.rc ∧ (mark_timeout E s).send_buf = s.send_buf ∧
    (mark_timeout E s).log = s.log ∧ (mark_timeout E s).outcomes = s.outcomes ∧
    (mark_timeout E s).iter = s.iter ∧ (mark_timeout E s).attempt = s.attempt ∧
    (mark_timeout E s).pings = s.pings := by
  unfold mark_timeout
  split <;> simp

theorem attempt_record_frame (E : Env) (attempts : Int) (s : Session) :
    (attempt_record E attempts s).rc = s.rc ∧ (attempt_record E attempts s).send_buf = s.send_buf ∧
    (attempt_record E attempts s).log = s.log ∧
    (attempt_record E attempts s).outcomes = s.outcomes ++ [s.rc] ∧
    (attempt_record E attempts s).iter = s.iter ∧
    (attempt_record E attempts s).attempt = s.attempt ∧
    (attempt_record E attempts s).pr = s.pr ∧
    (attempt_record E attempts s).pings
      = (if attempts ≠ E.PING_INFINITE then s.pings ++ [s.pr] else s.pings) := by
  unfold attempt_record
  split <;> simp

/-- What one turn of the attempt loop does to the bookkeeping: one more frame, the one
`init_ping_packet` and `send_ping` made of the send buffer, and one more outcome. -/
theorem attempt_body_frame (E : Env) (packet_size attempts seq_no : Int) (rfuel : Nat)
    (s s' : Session) (h : attempt_body E packet_size attempts seq_no rfuel s = some s') :
    s'.send_buf = send_ping_stamp
        (init_ping_packet s.send_buf packet_size seq_no E.pid (E.tick_build s.iter))
        (E.tick_send s.iter) ∧
    sent_frames s'.log = sent_frames s.log ++
      [transmitted_frame s.send_buf packet_size seq_no E.pid (E.tick_build s.iter)
        (E.tick_send s.iter)] ∧
    s'.outcomes = s.outcomes ++ [s'.rc] ∧
    s'.iter = s.iter + 1 ∧ s'.attempt = s.attempt ∧
    s'.pings = (if attempts ≠ E.PING_INFINITE then s.pings ++ [s'.pr] else s.pings) := by
  obtain ⟨a1, a2, a3, a4, a5, a6⟩ := attempt_send_frame E packet_size seq_no s
  unfold attempt_body at h
  split at h
  · split at h
    · cases h
    · rename_i s2 hr
      cases h
      obtain ⟨r1, r2, r3, r4, r5, r6⟩ := recv_loop_frame E packet_size seq_no rfuel _ _ hr
      obtain ⟨m1, m2, m3, m4, m5, m6, m7⟩ := mark_timeout_frame E s2
      obtain ⟨c1, c2, c3, c4, c5, c6, c7, c8⟩ := attempt_record_frame E attempts (mark_timeout E s2)
      refine ⟨?_, ?_, ?_, ?_, ?_, ?_⟩
      · rw [c2, m2, r1, a1]
      · rw [c3, m3, r3, a2]
      · rw [c4, c1, m4, r4, a3]
      · rw [c5, m5, r5, a4]
      · rw [c6, m6, r6, a5]
      · rw [c8, c7, m7, r2, a6]
  · cases h
    obtain ⟨c1, c2, c3, c4, c5, c6, c7, c8⟩ :=
      attempt_record_frame E attempts (attempt_send E packet_size seq_no s)
    refine ⟨?_, ?_, ?_, ?_, ?_, ?_⟩
    · rw [c2, a1]
    · rw [c3, a2]
    · rw [c4, c1, a3]
    · rw [c5, a4]
    · rw [c6, a5]
    · rw [c8, c7, a6]

/-- An invariant of the attempt loop holds when the loop has left. -/
theorem ping_loop_invariant (E : Env) (packet_size attempts seq_no : Int) (rfuel : Nat)
    (I : Session → Prop)
    (hcond : ∀ s, I s → I (loop_cond E attempts s).2)
    (hbody : ∀ s s', I s → attempt_body E packet_size attempts seq_no rfuel s = some s' → I s') :
    ∀ (fuel : Nat) (s s' : Session), I s →
      ping_loop E packet_size attempts seq_no rfuel fuel s = some s' → I s' := by
  intro fuel
  induction fuel with
  | zero => intro s s' _ h; simp [ping_loop] at h
  | succ n ih =>
    intro s s' hI h
    simp only [ping_loop] at h
    split at h
    · split at h
      · cases h
      · rename_i s1 hb
        exact ih s1 s' (hbody _ _ (hcond s hI) hb) h
    · cases h
      exact hcond s hI

theorem loop_cond_frame (E : Env) (attempts : Int) (s : Session) :
    (loop_cond E attempts s).2.rc = s.rc ∧ (loop_cond E attempts s).2.send_buf = s.send_buf ∧
    (loop_cond E attempts s).2.log = s.log ∧ (loop_cond E attempts s).2.outcomes = s.outcomes ∧
    (loop_cond E attempts s).2.iter = s.iter ∧ (loop_cond E attempts s).2.pings = s.pings ∧
    (loop_cond E attempts s).2.recv_buf = s.recv_buf ∧ (loop_cond E attempts s).2.pr = s.pr ∧
    (loop_cond E attempts s).2.nrecv = s.nrecv := by
  unfold loop_cond
  split <;> simp

theorem clamp_packet_size_bounds (packet_size : Int) :
    12 ≤ clamp_packet_size packet_size ∧ clamp_packet_size packet_size ≤ 1024 := by
  unfold clamp_packet_size
  simp only [MAX_PING_DATA_SIZE, sizeof_ICMPHeader]
  split <;> split <;> omega

/-- For a requested size from 1 to 1024 the statement computes the integer
`max(sizeof(ICMPHeader), min(MAX_PING_DATA_SIZE, packet_size))`. -/
theorem clamp_packet_size_of_pos (packet_size : Int) (h1 : 1 ≤ packet_size)
    (h2 : packet_size ≤ 1024) :
    clamp_packet_size packet_size
      = max (sizeof_ICMPHeader : Int) (min (MAX_PING_DATA_SIZE : Int) packet_size) := by
  unfold clamp_packet_size
  simp only [MAX_PING_DATA_SIZE, sizeof_ICMPHeader]
  have hu : (packet_size % 2 ^ 32).toNat = packet_size.toNat := by omega
  rw [hu]
  split <;> split <;> omega

/-- The ways `winping::ping` returns: before the attempt loop, with nothing sent and
nothing recorded, or from the attempt loop after a successful setup. -/
theorem ping_cases (E : Env) (host : String) (packet_size ttl attempts : Int) (fuel : Nat)
    (r : PingResult) (h : ping E host packet_size ttl attempts fuel = some r) :
    (sent_frames r.log = [] ∧ r.pings = [] ∧ r.outcomes = [] ∧ r.err = r.rc ∧
      ¬ setup_succeeds E host packet_size ttl) ∨
    (setup_succeeds E host packet_size ttl ∧
      ∃ s, ping_loop E (clamp_packet_size packet_size) attempts 0 fuel fuel
              (Session.start E (clamp_packet_size packet_size)) = some s ∧
        r = returnc (if s.rc = WSAETIMEDOUT then WSASUCCESS else s.rc) s.pings
              (s.log ++ [Event.WSACleanup]) s.outcomes) := by
  unfold ping at h
  unfold setup_succeeds
  split at h
  · cases h; left; simp_all [returnc, sent_frames]
  · split at h
    · rename_i hp
      cases h; left
      refine ⟨rfl, rfl, rfl, rfl, ?_⟩
      simp only [MAX_PING_DATA_SIZE] at hp ⊢
      omega
    · split at h
      · rename_i ht
        cases h; left
        refine ⟨rfl, rfl, rfl, rfl, ?_⟩
        simp only [MAX_TTL] at ht ⊢
        omega
      · split at h
        · rename_i hw
          cases h; left
          exact ⟨rfl, rfl, rfl, rfl, fun hs => hw hs.2.2.2.2.2.1⟩
        · simp only at h
          split at h
          · rename_i hs
            cases h; left
            exact ⟨rfl, rfl, rfl, rfl, fun hs' => hs hs'.2.2.2.2.2.2.1⟩
          · split at h
            · rename_i ha
              cases h; left
              refine ⟨rfl, rfl, rfl, rfl, fun hs' => ha ?_⟩
              rw [hs'.2.2.2.2.2.2.2.1, hs'.2.2.2.2.2.2.2.2]
              rfl
            · rename_i hh hp ht hw hs ha
              split at h
              · cases h
              · rename_i s hl
                cases h
                right
                refine ⟨⟨?_, ?_, ?_, ?_, ?_, ?_, ?_, ?_, ?_⟩, s, hl, rfl⟩
                · simpa using hh
                · intro h0; exact hp (Or.inl h0)
                · exact not_lt.mp (fun hgt => hp (Or.inr hgt))
                · intro h0; exact ht (Or.inl h0)
                · exact not_lt.mp (fun hgt => ht (Or.inr hgt))
                · exact not_not.mp hw
                · exact not_not.mp hs
                · revert ha; unfold allocate_buffers; cases E.send_alloc <;> simp [EBUFFER_ALLOCATION_FAILED, WSASUCCESS]
                · revert ha; unfold allocate_buffers; cases E.send_alloc <;> cases E.recv_alloc <;> simp [EBUFFER_ALLOCATION_FAILED, WSASUCCESS]

/-- Every frame a returned session handed to `sendto` has the clamped packet size as its
length and 0 in its sequence field. -/
theorem ping_sent_frames (E : Env) (host : String) (packet_size ttl attempts : Int)
    (fuel : Nat) (r : PingResult) (h : ping E host packet_size ttl attempts fuel = some r) :
    ∀ f ∈ sent_frames r.log,
      (f.length : Int) = clamp_packet_size packet_size ∧ icmp_seq f 0 = 0 := by
  obtain ⟨hlo, hhi⟩ := clamp_packet_size_bounds packet_size
  rcases ping_cases E host packet_size ttl attempts fuel r h with ⟨h0, _⟩ | ⟨_, s, hl, rfl⟩
  · intro f hf
    rw [h0] at hf
    cases hf
  · have hinv := ping_loop_invariant E (clamp_packet_size packet_size) attempts 0 fuel
      (fun s => s.send_buf.length = (clamp_packet_size packet_size).toNat ∧
        ∀ f ∈ sent_frames s.log,
          (f.length : Int) = clamp_packet_size packet_size ∧ icmp_seq f 0 = 0)
      (by
        intro s hI
        obtain ⟨_, c2, c3, _⟩ := loop_cond_frame E attempts s
        simp only [c2, c3]
        exact hI)
      (by
        intro s s' hI hb
        obtain ⟨b1, b2, _⟩ := attempt_body_frame E _ attempts 0 fuel s s' hb
        refine ⟨?_, ?_⟩
        · rw [b1, length_send_ping_stamp, length_init_ping_packet]
          exact hI.1
        · intro f hf
          rw [b2, List.mem_append, List.mem_singleton] at hf
          rcases hf with hf | rfl
          · exact hI.2 f hf
          · refine ⟨?_, ?_⟩
            · rw [length_transmitted_frame _ _ _ _ _ _ hI.1]
              omega
            · rw [icmp_seq_transmitted_frame _ _ _ _ _ _ (by rw [hI.1]; omega) hlo]
              rfl)
      fuel (Session.start E (clamp_packet_size packet_size)) s
      (by
        refine ⟨?_, ?_⟩
        · simp [Session.start, fresh_buf]
        · intro f hf
          simp [Session.start, sent_frames] at hf)
      hl
    intro f hf
    simp only [returnc, sent_frames_append, sent_frames, List.append_nil] at hf
    exact hinv.2 f hf

/-- At the end of every turn of the attempt loop `rc` is the outcome just listed. -/
theorem ping_loop_last_outcome (E : Env) (packet_size attempts : Int) (fuel : Nat)
    (s : Session)
    (hl : ping_loop E packet_size attempts 0 fuel fuel (Session.start E packet_size) = some s) :
    s.rc = s.outcomes.getLast?.getD WSASUCCESS := by
  exact ping_loop_invariant E packet_size attempts 0 fuel
    (fun s => s.rc = s.outcomes.getLast?.getD WSASUCCESS)
    (by
      intro s hI
      obtain ⟨c1, _, _, c4, _⟩ := loop_cond_frame E attempts s
      simp only [c1, c4]
      exact hI)
    (by
      intro s s' _ hb
      obtain ⟨_, _, b3, _⟩ := attempt_body_frame E _ attempts 0 fuel s s' hb
      simp only [b3, List.getLast?_concat, Option.getD_some])
    fuel (Session.start E packet_size) s rfl hl

/-! ### The session claims -/

/-- C5 at a failing input: two attempts, the first send fails with WSAENETUNREACH
(10051).  The loop is not broken: a second frame is built and sent, a second record is
appended, and ping returns success, not the error. -/
theorem ping_goes_on_after_send_error :
    (ping env_send_fails_once "localhost" 32 30 2 3).map
      (fun r => (r.rc, r.err, r.outcomes, (sent_frames r.log).length, r.pings.length))
      = some (WSASUCCESS, WSASUCCESS, [10051, WSASUCCESS], 2, 2) := by
  decide

/-- C7, refuted as stated: in a session of two attempts the frame of the second attempt
(k = 1) carries sequence number 0, not 1. -/
theorem ping_second_frame_sequence :
    (ping env_loopback "localhost" 32 30 2 3).map
      (fun r => (sent_frames r.log).map (fun f => icmp_seq f 0)) = some [0, 0] := by
  decide

/-- C7, amended: every echo-request frame a session hands to the socket carries sequence
number 0; the sequence starts at 0 and is never incremented. -/
theorem ping_frames_sequence_zero (E : Env) (host : String) (packet_size ttl attempts : Int)
    (fuel : Nat) (r : PingResult) (h : ping E host packet_size ttl attempts fuel = some r) :
    ∀ f ∈ sent_frames r.log, icmp_seq f 0 = 0 :=
  fun f hf => (ping_sent_frames E host packet_size ttl attempts fuel r h f hf).2

/-- Witness of the amended C7: a session of three attempts sends three frames, each with
sequence number 0. -/
theorem ping_frames_sequence_zero_witness :
    ∃ r, ping env_loopback "localhost" 32 30 3 4 = some r ∧
      (sent_frames r.log).length = 3 ∧ ∀ f ∈ sent_frames r.log, icmp_seq f 0 = 0 :=
  match hp : ping env_loopback "localhost" 32 30 3 4 with
  | some r =>
    have hlen : (ping env_loopback "localhost" 32 30 3 4).map
        (fun r => (sent_frames r.log).length) = some 3 := by decide
    ⟨r, rfl, by rw [hp] at hlen; exact Option.some.inj hlen,
      ping_frames_sequence_zero env_loopback "localhost" 32 30 3 4 r hp⟩
  | none => absurd hp (by decide)

/-- C8, refuted as stated: a session of one attempt that ends TTL-exceeded returns the
failure value ETTL_EXPIRED ^ 11 = 0xe210000b and stores it in err; one that ends
destination-unreachable returns and stores WSAEHOSTUNREACH. -/
theorem ping_returns_ttl_expired :
    (ping env_ttl_exceeded "localhost" 32 30 1 2).map (fun r => (r.rc, r.err, r.outcomes))
      = some (ETTL_EXPIRED ^^^ ICMP_TTL_EXPIRE, ETTL_EXPIRED ^^^ ICMP_TTL_EXPIRE,
          [ETTL_EXPIRED ^^^ ICMP_TTL_EXPIRE]) ∧
    (ping env_unreachable "localhost" 32 30 1 2).map (fun r => (r.rc, r.err, r.outcomes))
      = some (WSAEHOSTUNREACH, WSAEHOSTUNREACH, [WSAEHOSTUNREACH]) := by
  decide

/-- C8, amended: when setup succeeds, ping stores in err the value it returns; if every
attempt ends either Accepted (rc = WSASUCCESS) or with a timeout (rc = WSAETIMEDOUT),
that value is WSASUCCESS; and if the last attempt ends with any code other than the
timeout, that code is the value. -/
theorem ping_success_of_accepted_or_timeout (E : Env) (host : String)
    (packet_size ttl attempts : Int) (fuel : Nat) (r : PingResult)
    (hs : setup_succeeds E host packet_size ttl)
    (h : ping E host packet_size ttl attempts fuel = some r) :
    r.err = r.rc ∧
    ((∀ o ∈ r.outcomes, o = WSASUCCESS ∨ o = WSAETIMEDOUT) → r.rc = WSASUCCESS) ∧
    (∀ o, r.outcomes.getLast? = some o → o ≠ WSAETIMEDOUT → r.rc = o) := by
  rcases ping_cases E host packet_size ttl attempts fuel r h with ⟨_, _, _, _, hn⟩ | ⟨_, s, hl, rfl⟩
  · exact absurd hs hn
  · have hlast := ping_loop_last_outcome E _ attempts fuel s hl
    refine ⟨rfl, ?_, ?_⟩
    · intro ho
      simp only [returnc] at ho ⊢
      have hrc : s.rc = WSASUCCESS ∨ s.rc = WSAETIMEDOUT := by
        cases hg : s.outcomes.getLast? with
        | none => rw [hg] at hlast; left; exact hlast
        | some o =>
          rw [hg] at hlast
          simp only [Option.getD_some] at hlast
          rw [hlast]
          exact ho o (List.mem_of_getLast?_eq_some hg)
      rcases hrc with h0 | h1
      · rw [h0]; decide
      · rw [h1]; decide
    · intro o hg hne
      simp only [returnc] at hg ⊢
      rw [hg] at hlast
      simp only [Option.getD_some] at hlast
      rw [hlast, if_neg hne]

/-- Witness of the amended C8: two attempts against a dark address (receive buffer all
zero) both time out, and ping returns and stores success. -/
theorem ping_success_of_accepted_or_timeout_witness :
    ∃ r, ping env_dark_zeroed "10.255.255.1" 32 30 2 3 = some r ∧
      r.outcomes = [WSAETIMEDOUT, WSAETIMEDOUT] ∧ r.rc = WSASUCCESS ∧ r.err = WSASUCCESS :=
  match hp : ping env_dark_zeroed "10.255.255.1" 32 30 2 3 with
  | some r =>
    have hout : (ping env_dark_zeroed "10.255.255.1" 32 30 2 3).map (fun r => r.outcomes)
        = some [WSAETIMEDOUT, WSAETIMEDOUT] := by decide
    have ho : r.outcomes = [WSAETIMEDOUT, WSAETIMEDOUT] := by
      rw [hp] at hout; exact Option.some.inj hout
    have hthm := ping_success_of_accepted_or_timeout env_dark_zeroed "10.255.255.1" 32 30 2 3 r
      (by unfold setup_succeeds; decide) hp
    ⟨r, rfl, ho, hthm.2.1
        (by
          rw [ho]
          intro o hmem
          simp only [List.mem_cons, List.mem_singleton, List.not_mem_nil, or_false] at hmem
          rcases hmem with rfl | rfl
          · right; rfl
          · right; rfl), hthm.1.trans (hthm.2.1
        (by
          rw [ho]
          intro o hmem
          simp only [List.mem_cons, List.mem_singleton, List.not_mem_nil, or_false] at hmem
          rcases hmem with rfl | rfl
          · right; rfl
          · right; rfl))⟩
  | none => absurd hp (by decide)

/-- C9 at a failing input: the requested size -1 passes the size check, and the frame
built and sent is 1024 bytes long, whereas max(12, min(1024, -1)) over the integers
is 12. -/
theorem ping_negative_size_frame_length :
    (∃ r, ping env_loopback "localhost" (-1) 30 1 2 = some r ∧
      (sent_frames r.log).length = 1 ∧ ∀ f ∈ sent_frames r.log, (f.length : Int) = 1024) ∧
    max (sizeof_ICMPHeader : Int) (min (MAX_PING_DATA_SIZE : Int) (-1)) = 12 :=
  ⟨match hp : ping env_loopback "localhost" (-1) 30 1 2 with
    | some r =>
      have hlen : (ping env_loopback "localhost" (-1) 30 1 2).map
          (fun r => (sent_frames r.log).length) = some 1 := by decide
      ⟨r, rfl, by rw [hp] at hlen; exact Option.some.inj hlen,
        fun f hf => (ping_sent_frames env_loopback "localhost" (-1) 30 1 2 r hp f hf).1.trans
          (by decide)⟩
    | none => absurd hp (by decide),
   by decide⟩

/-- When every receive fails and the sequence field found in the receive buffer differs
from `seq_no`, the receive loop takes the `continue` branch for ever. -/
theorem recv_loop_stale_seq (E : Env) (packet_size seq_no : Int) (code : Nat)
    (hcode : code ≠ WSASUCCESS) (hrecv : ∀ n, E.recv n = RecvResult.error code) :
    ∀ (fuel : Nat) (s : Session),
      (icmp_seq s.recv_buf (ip_h_len s.recv_buf * 4) : Int) ≠ seq_no →
      recv_loop E packet_size seq_no fuel s = none := by
  intro fuel
  induction fuel with
  | zero => intro s _; rfl
  | succ n ih =>
    intro s hseq
    simp only [recv_loop, hrecv, recv_ping]
    rw [if_pos hcode, if_pos hseq]
    exact ih _ hseq

/-- C4 at a failing input: one attempt against a dark address, every receive failing
with WSAETIMEDOUT, the fresh receive buffer holding 0xCD bytes.  The sequence field read
from that buffer (0xCDCD) is not seq_no = 0, so the receive loop is never left:
ping does not return, whatever the number of loop turns allowed. -/
theorem ping_dark_never_returns :
    ∀ fuel, ping env_dark "10.255.255.1" 32 30 1 fuel = none := by
  intro fuel
  have hps : clamp_packet_size 32 = 32 := by decide
  have hloop : ping_loop env_dark 32 1 0 fuel fuel (Session.start env_dark 32) = none := by
    cases fuel with
    | zero => rfl
    | succ n =>
      have hc : loop_cond env_dark 1 (Session.start env_dark 32)
          = (true, { Session.start env_dark 32 with attempt := 1 }) := by
        unfold loop_cond
        rw [if_neg (by decide)]
        rfl
      have hsend : (attempt_send env_dark 32 0
          { Session.start env_dark 32 with attempt := 1 }).rc = WSASUCCESS := rfl
      have hstuck := recv_loop_stale_seq env_dark 32 0 WSAETIMEDOUT (by decide)
        (fun _ => rfl) (n + 1)
        (attempt_send env_dark 32 0 { Session.start env_dark 32 with attempt := 1 })
        (by decide)
      simp only [ping_loop, hc, attempt_body, if_pos hsend, hstuck, if_true]
  unfold ping
  rw [if_neg (by decide), if_neg (by decide), if_neg (by decide), if_neg (by decide)]
  simp only [hps]
  rw [if_neg (by decide), if_neg (by decide), hloop]

theorem and_class_mask_of_lt (x : Nat) (hx : x < 65536) : x &&& 0xefff0000 = 0 := by
  apply Nat.eq_of_testBit_eq
  intro i
  rw [Nat.testBit_and, Nat.zero_testBit]
  by_cases hi : i < 16
  · have hm : Nat.testBit 0xefff0000 i = false := by
      interval_cases i <;> rfl
    rw [hm, Bool.and_false]
  · have hpow : (65536 : Nat) ≤ 2 ^ i := by
      have : (2 : Nat) ^ 16 ≤ 2 ^ i := Nat.pow_le_pow_right (by decide) (not_lt.mp hi)
      simpa using this
    have hxi : x.testBit i = false := Nat.testBit_lt_two_pow (lt_of_lt_of_le hx hpow)
    rw [hxi, Bool.false_and]

/-- A value below `2^16` XORed into an error constant does not change its class. -/
theorem err_class_xor (c x : Nat) (hc : c &&& 0xefff0000 = c) (hx : x < 65536) :
    err_class (c ^^^ x) = c := by
  unfold err_class
  rw [Nat.and_xor_distrib_right, hc, and_class_mask_of_lt x hx, Nat.xor_zero]

/-- C6, refuted as stated: the packet size 5, outside [8, 1024], is accepted; the
socket library is started, a 12-byte frame is sent, one record is appended, and ping
returns success. -/
theorem ping_accepts_size_five :
    (ping env_dark_zeroed "10.255.255.1" 5 30 1 2).map
      (fun r => (r.rc, r.log.head?, (sent_frames r.log).map List.length, r.pings.length))
      = some (WSASUCCESS, some Event.WSAStartup, [12], 1) := by
  decide

/-- C6, amended: when the host is empty, or the packet size is 0 or above 1024, or the
TTL is 0 or above 255, ping returns a configuration error (class EINVALID_HOSTNAME,
EPACKET_SIZE_OUT_OF_BOUNDS or ETTL_SIZE_OUT_OF_BOUNDS) and stores it in err, having made
no call to the socket library and appended no record; for packet size 2000 and a
non-empty host the value is EPACKET_SIZE_OUT_OF_BOUNDS ^ 2000. -/
theorem ping_rejects_bad_configuration (E : Env) (host : String)
    (packet_size ttl attempts : Int) (fuel : Nat)
    (hbad : host.isEmpty = true ∨ packet_size = 0 ∨ packet_size > 1024 ∨ ttl = 0 ∨ ttl > 255) :
    ∃ r, ping E host packet_size ttl attempts fuel = some r ∧
      r.log = [] ∧ r.pings = [] ∧ r.err = r.rc ∧
      (err_class r.rc = EINVALID_HOSTNAME ∨ err_class r.rc = EPACKET_SIZE_OUT_OF_BOUNDS ∨
        err_class r.rc = ETTL_SIZE_OUT_OF_BOUNDS) ∧
      (host.isEmpty = false → packet_size = 2000 →
        r.rc = EPACKET_SIZE_OUT_OF_BOUNDS ^^^ 2000) := by
  unfold ping
  by_cases hh : host.isEmpty = true
  · rw [if_pos hh]
    refine ⟨_, rfl, rfl, rfl, rfl, Or.inl (by decide), ?_⟩
    intro hne
    rw [hh] at hne
    cases hne
  · rw [if_neg hh]
    by_cases hp : packet_size = 0 ∨ packet_size > (MAX_PING_DATA_SIZE : Int)
    · rw [if_pos hp]
      refine ⟨_, rfl, rfl, rfl, rfl, Or.inr (Or.inl ?_), ?_⟩
      · exact err_class_xor _ _ (by decide) (by omega)
      · intro _ h2000
        rw [h2000]
        rfl
    · rw [if_neg hp]
      have ht : ttl = 0 ∨ ttl > (MAX_TTL : Int) := by
        simp only [MAX_PING_DATA_SIZE, MAX_TTL] at hp ⊢
        rcases hbad with h | h | h | h | h
        · exact absurd h hh
        · omega
        · omega
        · omega
        · omega
      rw [if_pos ht]
      refine ⟨_, rfl, rfl, rfl, rfl, Or.inr (Or.inr ?_), ?_⟩
      · exact err_class_xor _ _ (by decide) (by omega)
      · intro _ h2000
        exfalso
        apply hp
        right
        rw [h2000]
        decide

/-- Witness of the amended C6: packet size 2000 is answered with 0xe12007d0 before
anything is sent. -/
theorem ping_rejects_bad_configuration_witness :
    ∃ r, ping env_loopback "localhost" 2000 30 4 0 = some r ∧
      r.log = [] ∧ r.pings = [] ∧ r.rc = 0xe12007d0 := by
  obtain ⟨r, h1, h2, h3, _, _, h6⟩ :=
    ping_rejects_bad_configuration env_loopback "localhost" 2000 30 4 0
      (Or.inr (Or.inr (Or.inl (by decide))))
  exact ⟨r, h1, h2, h3, (h6 (by decide) rfl).trans (by decide)⟩

/-! ### Sessions in which every receive times out -/

/-- When every receive times out and the sequence field found in the receive buffer is
`seq_no`, the receive loop is left at its first turn with `rc = WSAETIMEDOUT`. -/
theorem recv_loop_timeout (E : Env) (packet_size seq_no : Int)
    (hrecv : ∀ n, E.recv n = RecvResult.error WSAETIMEDOUT) (fuel : Nat) (s : Session)
    (hseq : (icmp_seq s.recv_buf (ip_h_len s.recv_buf * 4) : Int) = seq_no) :
    recv_loop E packet_size seq_no (fuel + 1) s =
      some { s with rc := WSAETIMEDOUT, nrecv := s.nrecv + 1,
                    log := s.log ++ [Event.recvfrom] } := by
  simp only [recv_loop, hrecv, recv_ping]
  rw [if_pos (by decide), if_neg (not_not_intro hseq)]

/-- One turn of the attempt loop whose send succeeds and whose receive times out. -/
theorem attempt_body_timeout (E : Env) (packet_size attempts seq_no : Int) (rfuel : Nat)
    (s : Session) (hfin : attempts ≠ E.PING_INFINITE)
    (hsend : ∃ b, E.send s.iter = SendResult.ok b)
    (hrecv : ∀ n, E.recv n = RecvResult.error WSAETIMEDOUT)
    (hseq : (icmp_seq s.recv_buf (ip_h_len s.recv_buf * 4) : Int) = seq_no) :
    ∃ s', attempt_body E packet_size attempts seq_no (rfuel + 1) s = some s' ∧
      s'.rc = WSAETIMEDOUT ∧ s'.recv_buf = s.recv_buf ∧ s'.attempt = s.attempt ∧
      s'.iter = s.iter + 1 ∧
      s'.pings = s.pings ++ [s'.pr] ∧ s'.pr.bytes_recv = E.REQUEST_TIMEOUT := by
  obtain ⟨b, hb⟩ := hsend
  have hrc : (attempt_send E packet_size seq_no s).rc = WSASUCCESS := by
    simp only [attempt_send, hb, send_ping]
  have hbuf : (attempt_send E packet_size seq_no s).recv_buf = s.recv_buf := rfl
  have hloop := recv_loop_timeout E packet_size seq_no hrecv rfuel
    (attempt_send E packet_size seq_no s) (by rw [hbuf]; exact hseq)
  have hbody : attempt_body E packet_size attempts seq_no (rfuel + 1) s =
      some (attempt_record E attempts (mark_timeout E
        { attempt_send E packet_size seq_no s with
          rc := WSAETIMEDOUT, nrecv := (attempt_send E packet_size seq_no s).nrecv + 1,
          log := (attempt_send E packet_size seq_no s).log ++ [Event.recvfrom] })) := by
    unfold attempt_body
    rw [if_pos hrc, hloop]
  refine ⟨_, hbody, ?_⟩
  simp [attempt_record, mark_timeout, hfin, attempt_send]

/-- The attempt loop of a finite session in which every send succeeds and every receive
times out, entered with `k` attempts left: it is left after `k` turns, with `k` more
records, each marked as timed out. -/
theorem ping_loop_all_timeouts (E : Env) (packet_size : Int) (n : Nat) (rfuel : Nat)
    (hfin : (n : Int) ≠ E.PING_INFINITE)
    (hsend : ∀ k, ∃ b, E.send k = SendResult.ok b)
    (hrecv : ∀ k, E.recv k = RecvResult.error WSAETIMEDOUT) :
    ∀ (k fuel : Nat) (s : Session), k < fuel → s.attempt + k = n →
      (icmp_seq s.recv_buf (ip_h_len s.recv_buf * 4) : Int) = 0 →
      (s.rc = WSASUCCESS ∨ s.rc = WSAETIMEDOUT) →
      (∀ p ∈ s.pings, p.bytes_recv = E.REQUEST_TIMEOUT) →
      ∃ s', ping_loop E packet_size n 0 (rfuel + 1) fuel s = some s' ∧
        (s'.rc = WSASUCCESS ∨ s'.rc = WSAETIMEDOUT) ∧
        s'.pings.length = s.pings.length + k ∧
        (∀ p ∈ s'.pings, p.bytes_recv = E.REQUEST_TIMEOUT) := by
  intro k
  induction k with
  | zero =>
    intro fuel s hfuel hatt _ hrc hp
    obtain ⟨m, rfl⟩ : ∃ m, fuel = m + 1 := ⟨fuel - 1, by omega⟩
    have hc : loop_cond E n s = (false, { s with attempt := s.attempt + 1 }) := by
      unfold loop_cond
      rw [if_neg (fun h => hfin h.2)]
      have : ¬ s.attempt < (n : Int) := by omega
      simp [this]
    refine ⟨{ s with attempt := s.attempt + 1 }, ?_, hrc, rfl, hp⟩
    simp [ping_loop, hc]
  | succ k ih =>
    intro fuel s hfuel hatt hseq _ hp
    obtain ⟨m, rfl⟩ : ∃ m, fuel = m + 1 := ⟨fuel - 1, by omega⟩
    have hc : loop_cond E n s = (true, { s with attempt := s.attempt + 1 }) := by
      unfold loop_cond
      rw [if_neg (fun h => hfin h.2)]
      have : s.attempt < (n : Int) := by omega
      simp [this]
    obtain ⟨s1, hb, b1, b2, b3, _, b5, b6⟩ :=
      attempt_body_timeout E packet_size n 0 rfuel { s with attempt := s.attempt + 1 }
        hfin (hsend _) hrecv hseq
    dsimp only at b2 b3 b5
    obtain ⟨s', hl, r1, r2, r3⟩ := ih m s1 (by omega)
      (by rw [b3]; push_cast at hatt ⊢; omega)
      (by rw [b2]; exact hseq) (Or.inr b1)
      (by
        intro p hmem
        rw [b5, List.mem_append, List.mem_singleton] at hmem
        rcases hmem with h | rfl
        · exact hp p h
        · exact b6)
    refine ⟨s', ?_, r1, ?_, r3⟩
    · simp only [ping_loop, hc, if_true, hb]
      exact hl
    · rw [r2, b5, List.length_append, List.length_singleton]
      omega

/-- A finite session of `n` attempts in which setup succeeds, every send succeeds and
every receive times out, the sequence field found in the fresh receive buffer being 0:
ping returns success with `n` records, each marked REQUEST_TIMEOUT. -/
theorem ping_all_timeouts (E : Env) (host : String) (packet_size ttl : Int) (n fuel : Nat)
    (hfuel : n < fuel)
    (hfin : (n : Int) ≠ E.PING_INFINITE)
    (hs : setup_succeeds E host packet_size ttl)
    (hsend : ∀ k, ∃ b, E.send k = SendResult.ok b)
    (hrecv : ∀ k, E.recv k = RecvResult.error WSAETIMEDOUT)
    (hseq : icmp_seq (fresh_buf E.recv_mem MAX_PING_PACKET_SIZE)
      (ip_h_len (fresh_buf E.recv_mem MAX_PING_PACKET_SIZE) * 4) = 0) :
    ∃ r, ping E host packet_size ttl n fuel = some r ∧
      r.rc = WSASUCCESS ∧ r.err = WSASUCCESS ∧ r.pings.length = n ∧
      ∀ p ∈ r.pings, p.bytes_recv = E.REQUEST_TIMEOUT := by
  obtain ⟨h1, h2, h3, h4, h5, h6, h7, h8, h9⟩ := hs
  obtain ⟨m, rfl⟩ : ∃ m, fuel = m + 1 := ⟨fuel - 1, by omega⟩
  obtain ⟨s', hl, r1, r2, r3⟩ :=
    ping_loop_all_timeouts E (clamp_packet_size packet_size) n m hfin hsend hrecv n (m + 1)
      (Session.start E (clamp_packet_size packet_size)) hfuel
      (by simp [Session.start])
      (by simp only [Session.start]; rw [hseq]; rfl)
      (Or.inl rfl)
      (by intro p hp; simp [Session.start] at hp)
  have hrc : (if s'.rc = WSAETIMEDOUT then WSASUCCESS else s'.rc) = WSASUCCESS := by
    rcases r1 with h | h
    · rw [h]; rfl
    · rw [h]; rfl
  refine ⟨returnc WSASUCCESS s'.pings (s'.log ++ [Event.WSACleanup]) s'.outcomes, ?_, rfl, rfl,
    ?_, r3⟩
  · unfold ping
    rw [if_neg (by rw [h1]; decide), if_neg (by omega), if_neg (by omega),
      if_neg (not_not_intro h6)]
    simp only
    rw [if_neg (not_not_intro h7), if_neg (by rw [h8, h9]; decide), hl]
    simp only [hrc]
  · simpa [returnc, Session.start] using r2

/-- The lemma `ping_all_timeouts` at work: four attempts against a dark address whose
fresh receive buffer is all zero. -/
theorem ping_all_timeouts_dark_zeroed :
    ∃ r, ping env_dark_zeroed "10.255.255.1" 32 30 4 5 = some r ∧
      r.rc = WSASUCCESS ∧ r.err = WSASUCCESS ∧ r.pings.length = 4 ∧
      ∀ p ∈ r.pings, p.bytes_recv = 0xffffffff :=
  ping_all_timeouts env_dark_zeroed "10.255.255.1" 32 30 4 5 (by decide) (by decide)
    (by unfold setup_succeeds; decide) (fun _ => ⟨32, rfl⟩) (fun _ => rfl) (by decide)

/-! ### The hop estimate and the TTL-exceeded branch -/

/-- The branches of `decode_reply` that reach "Figure out how far the packet travelled":
a long enough frame that is TTL-exceeded, or an echo reply of this session. -/
theorem decode_reply_stores (pid now : Nat) (reply : Buf) (bytes : Int) (pr : pingreq)
    (hlong : ((ip_h_len reply * 4 + ICMP_MIN : Nat) : Int) ≤ bytes)
    (hstore : icmp_type reply (ip_h_len reply * 4) = ICMP_TTL_EXPIRE ∨
      (icmp_type reply (ip_h_len reply * 4) = ICMP_ECHO_REPLY ∧
        icmp_id reply (ip_h_len reply * 4) = session_id pid)) :
    decode_reply pid now reply bytes pr = decode_tail now reply pr := by
  rw [decode_reply_long pid now reply bytes pr hlong]
  rcases hstore with h11 | ⟨h0, hid⟩
  · have hne : icmp_type reply (ip_h_len reply * 4) ≠ ICMP_ECHO_REPLY := by
      rw [h11]; decide
    simp only [if_pos hne, if_neg (not_not_intro h11)]
  · simp only [if_neg (not_not_intro h0), if_neg (not_not_intro hid)]

theorem decode_tail_hops (now : Nat) (reply : Buf) (pr : pingreq) :
    (decode_tail now reply pr).2.hops = nHops (ip_ttl reply) := by
  unfold decode_tail
  simp only []
  split <;> rfl

/-- C11: whenever decode_reply stores a hop estimate (a long enough TTL-exceeded frame or
echo reply of this session) for a reply TTL t in [1, 255], the estimate is 1 when t = 64,
0 when t = 128, and the integer 256 - t for every other t. -/
theorem decode_reply_hops (pid now : Nat) (reply : Buf) (bytes : Int) (pr : pingreq)
    (hlong : ((4 * ip_h_len reply + 8 : Nat) : Int) ≤ bytes)
    (hstore : icmp_type reply (4 * ip_h_len reply) = ICMP_TTL_EXPIRE ∨
      (icmp_type reply (4 * ip_h_len reply) = ICMP_ECHO_REPLY ∧
        icmp_id reply (4 * ip_h_len reply) = session_id pid))
    (hlo : 1 ≤ ip_ttl reply) (hhi : ip_ttl reply ≤ 255) :
    (ip_ttl reply = 64 → (decode_reply pid now reply bytes pr).2.hops = 1) ∧
    (ip_ttl reply = 128 → (decode_reply pid now reply bytes pr).2.hops = 0) ∧
    (ip_ttl reply ≠ 64 → ip_ttl reply ≠ 128 →
      (((decode_reply pid now reply bytes pr).2.hops : Nat) : Int)
        = 256 - (ip_ttl reply : Int)) := by
  have hcomm : 4 * ip_h_len reply = ip_h_len reply * 4 := Nat.mul_comm _ _
  rw [hcomm] at hlong hstore
  rw [decode_reply_stores pid now reply bytes pr hlong hstore, decode_tail_hops]
  unfold nHops
  refine ⟨?_, ?_, ?_⟩
  · intro h; rw [h]; rfl
  · intro h; rw [h]; rfl
  · intro h64 h128
    simp only
    rw [if_neg (by omega), if_neg (by omega)]
    omega

/-- Witness of C11: echo replies of this session arriving with TTL 64, 128 and 57 get the
hop estimates 1, 0 and 199. -/
theorem decode_reply_hops_witness :
    (decode_reply 7 1000 (mk_reply 0 64 7 0 990) 32 pingreq.init).2.hops = 1 ∧
    (decode_reply 7 1000 (mk_reply 0 128 7 0 990) 32 pingreq.init).2.hops = 0 ∧
    (((decode_reply 7 1000 (mk_reply 0 57 7 0 990) 32 pingreq.init).2.hops : Nat) : Int)
      = 256 - 57 :=
  ⟨(decode_reply_hops 7 1000 (mk_reply 0 64 7 0 990) 32 pingreq.init (by decide)
      (Or.inr ⟨by decide, by decide⟩) (by decide) (by decide)).1 (by decide),
   (decode_reply_hops 7 1000 (mk_reply 0 128 7 0 990) 32 pingreq.init (by decide)
      (Or.inr ⟨by decide, by decide⟩) (by decide) (by decide)).2.1 (by decide),
   (decode_reply_hops 7 1000 (mk_reply 0 57 7 0 990) 32 pingreq.init (by decide)
      (Or.inr ⟨by decide, by decide⟩) (by decide) (by decide)).2.2 (by decide) (by decide)⟩

/-- C12: a long enough frame whose embedded type is TTL-exceeded (11) gets the
TTL-expired code, which is not Retry and reads back as TtlExceeded, whatever its
identifier; the record gets the frame's sequence field, the IP header's TTL and the hop
estimate of that TTL, and keeps its round-trip time and its other fields. -/
theorem decode_reply_ttl_exceeded (pid now : Nat) (reply : Buf) (bytes : Int) (pr : pingreq)
    (hlong : ((4 * ip_h_len reply + 8 : Nat) : Int) ≤ bytes)
    (htype : icmp_type reply (4 * ip_h_len reply) = ICMP_TTL_EXPIRE) :
    (decode_reply pid now reply bytes pr).1 = ETTL_EXPIRED ^^^ ICMP_TTL_EXPIRE ∧
    (decode_reply pid now reply bytes pr).1 ≠ WSATRY_AGAIN ∧
    outcome_of_code (decode_reply pid now reply bytes pr).1 = some Outcome.TtlExceeded ∧
    (decode_reply pid now reply bytes pr).2.seq = icmp_seq reply (4 * ip_h_len reply) ∧
    (decode_reply pid now reply bytes pr).2.ttl = ip_ttl reply ∧
    (decode_reply pid now reply bytes pr).2.hops = nHops (ip_ttl reply) ∧
    (decode_reply pid now reply bytes pr).2.timems = pr.timems ∧
    (decode_reply pid now reply bytes pr).2.packet_size = pr.packet_size ∧
    (decode_reply pid now reply bytes pr).2.bytes_recv = pr.bytes_recv ∧
    (decode_reply pid now reply bytes pr).2.bytes_sent = pr.bytes_sent := by
  have hcomm : 4 * ip_h_len reply = ip_h_len reply * 4 := Nat.mul_comm _ _
  rw [hcomm] at hlong htype ⊢
  rw [decode_reply_stores pid now reply bytes pr hlong (Or.inl htype),
    decode_tail_ttl now reply pr htype]
  exact ⟨(by decide : ETTL_EXPIRED ^^^ (ICMP_TTL_EXPIRE &&& 0xffff)
      = ETTL_EXPIRED ^^^ ICMP_TTL_EXPIRE),
    (by decide : ETTL_EXPIRED ^^^ (ICMP_TTL_EXPIRE &&& 0xffff) ≠ WSATRY_AGAIN),
    (by decide : outcome_of_code (ETTL_EXPIRED ^^^ (ICMP_TTL_EXPIRE &&& 0xffff))
      = some Outcome.TtlExceeded),
    rfl, rfl, rfl, rfl, rfl, rfl, rfl⟩

/-- Witness of C12: a TTL-exceeded notification with the foreign identifier 9, decoded in
session 7 into a record whose round-trip time was 55. -/
theorem decode_reply_ttl_exceeded_witness :
    icmp_id (mk_reply 11 250 9 3 0) (4 * ip_h_len (mk_reply 11 250 9 3 0)) ≠ session_id 7 ∧
    (decode_reply 7 1000 (mk_reply 11 250 9 3 0) 32 { pingreq.init with timems := 55 }).1
      = 0xe210000b ∧
    (decode_reply 7 1000 (mk_reply 11 250 9 3 0) 32 { pingreq.init with timems := 55 }).2
      = { pingreq.init with seq := 3, ttl := 250, hops := 6, timems := 55 } :=
  have h := decode_reply_ttl_exceeded 7 1000 (mk_reply 11 250 9 3 0) 32
    { pingreq.init with timems := 55 } (by decide) (by decide)
  ⟨by decide, h.1.trans (by decide), by decide⟩

/-! ### The byte count handed to the decoder -/

theorem too_few_bytes_ne_try_again (b : Nat) (hb : b < 68) :
    ETOO_FEW_BYTES ^^^ b ≠ WSATRY_AGAIN := by
  intro h
  have h1 := malformed_code_facts b hb
  rw [h] at h1
  exact absurd h1 (by decide)

/-- A turn of the receive loop whose receive succeeds hands `decode_reply` the packet size
of the session: when that size is below `4 * h_len + 8` the loop is left with the
too-few-bytes code, however many bytes the receive has read. -/
theorem recv_loop_too_few_bytes (E : Env) (packet_size seq_no : Int) (fuel : Nat) (s : Session)
    (data : Buf) (hrecv : E.recv s.nrecv = RecvResult.ok data) (h0 : 0 ≤ packet_size)
    (hshort : packet_size <
      ((ip_h_len (data ++ s.recv_buf.drop data.length) * 4 + ICMP_MIN : Nat) : Int)) :
    ∃ s', recv_loop E packet_size seq_no (fuel + 1) s = some s' ∧
      s'.rc = ETOO_FEW_BYTES ^^^ packet_size.toNat ∧ s'.pr.bytes_recv = data.length := by
  have hlen : ip_h_len (data ++ s.recv_buf.drop data.length) < 16 := by
    unfold ip_h_len; omega
  have hb : packet_size.toNat < 68 := by
    simp only [ICMP_MIN] at hshort
    omega
  have hmod : (packet_size % 2 ^ 32).toNat = packet_size.toNat := by omega
  have hne := too_few_bytes_ne_try_again packet_size.toNat hb
  simp only [recv_loop, hrecv, recv_ping]
  rw [if_neg (not_not_intro rfl)]
  simp only [decode_reply_short _ _ _ _ _ hshort, hmod]
  rw [if_pos hne]
  exact ⟨_, rfl, rfl, rfl⟩

/-- C13 at a failing input: sessions of one attempt answered by a complete 32-byte echo
reply of this session (header-length nibble 5, so 32 >= 4 * 5 + 8).  Started with packet
size 12 or 27 the session classifies the reply Malformed, with the codes
ETOO_FEW_BYTES ^ 12 and ETOO_FEW_BYTES ^ 27, although 32 bytes were read; started with
packet size 28 it accepts the same reply.  Decoded with the 32 bytes read the reply
is Accepted. -/
theorem ping_decodes_with_packet_size :
    (mk_reply 0 128 7 0 1000).length = 32 ∧
    ¬ ((32 : Int) < ((4 * ip_h_len (mk_reply 0 128 7 0 1000) + 8 : Nat) : Int)) ∧
    (ping env_loopback "localhost" 12 30 1 2).map
      (fun r => (r.rc, outcome_of_code r.rc, r.pings.map (fun p => p.bytes_recv)))
      = some (ETOO_FEW_BYTES ^^^ 12, some Outcome.Malformed, [32]) ∧
    (ping env_loopback "localhost" 27 30 1 2).map
      (fun r => (r.rc, outcome_of_code r.rc, r.pings.map (fun p => p.bytes_recv)))
      = some (ETOO_FEW_BYTES ^^^ 27, some Outcome.Malformed, [32]) ∧
    (ping env_loopback "localhost" 28 30 1 2).map
      (fun r => (r.rc, outcome_of_code r.rc, r.pings.map (fun p => p.bytes_recv)))
      = some (WSASUCCESS, some Outcome.Accepted, [32]) ∧
    outcome_of_code (decode_reply 7 1010 (mk_reply 0 128 7 0 1000) 32 pingreq.init).1
      = some Outcome.Accepted := by
  decide

/-- The other direction: a datagram of 24 bytes with header-length nibble 5
(24 < 4 * 5 + 8) received in a session of packet size 32 is not classified Malformed; the
identifier, sequence and timestamp are read from bytes no receive has written, and the
reply is accepted. -/
theorem ping_accepts_truncated_reply :
    (24 : Int) < ((4 * ip_h_len ((mk_reply 0 128 7 0 1000).take 24) + 8 : Nat) : Int) ∧
    (ping env_truncated "localhost" 32 30 1 2).map
      (fun r => (r.rc, outcome_of_code r.rc, r.pings.map (fun p => p.bytes_recv)))
      = some (WSASUCCESS, some Outcome.Accepted, [24]) := by
  decide

end Winping
